import Mathlib

/-!
Verification development for the docx-extractor repository: a shallow
embedding of the extraction pipeline (docx-extractor.ts), the XML accessor
layer (xml-parser.ts) and the build pipeline (docx-builder.ts), together
with theorems about the embedded functions.

Modelling conventions:
- XML parts are modelled as already-parsed ordered trees (the generic
  tokenizer is an out-of-scope black box); every child node is an element
  node, and an element's text payload is carried in its textContent field.
- Attributes are stored keyed by local name; the namespace-tolerant tiered
  lookup of XmlParser.attr always resolves to the attribute with the
  requested local name, so attribute lookup is association-list lookup.
- JavaScript numbers on the length paths are modelled as exact rationals;
  Math.round is floor (x + 1/2), matching JS round-half-up.
- undefined and null both collapse to Option.none.
- base64 transport is collapsed: ExtractedImage.data holds the raw byte
  list itself (encode on extraction and atob on build are a bijection pair
  that no code inspects), so addImages writes those bytes directly.
- Fields of the TypeScript interfaces that no theorem below mentions
  (run/document formatting defaults, style inheritance pointers, etc.) are
  omitted from the corresponding structures.
-/

/-! ## Substring machinery -/

/-- Boolean test that pat occurs at the head of s. -/
def leadsWith : List Char → List Char → Bool
  | [], _ => true
  | _ :: _, [] => false
  | a :: as, b :: bs => a == b && leadsWith as bs

/-- Boolean test that pat occurs somewhere inside s. -/
def hasSubL (pat : List Char) : List Char → Bool
  | [] => leadsWith pat []
  | c :: rest => leadsWith pat (c :: rest) || hasSubL pat rest

/-- Boolean test that the string pat occurs inside the string s. -/
def strHasSub (s pat : String) : Bool := hasSubL pat.data s.data

/-- Proposition that pat occurs inside s. -/
def HasSub (s pat : String) : Prop := strHasSub s pat = true

theorem leadsWith_append {pat a : List Char} (b : List Char)
    (h : leadsWith pat a = true) : leadsWith pat (a ++ b) = true := by
  induction pat generalizing a with
  | nil => simp [leadsWith]
  | cons p ps ih =>
    cases a with
    | nil => simp [leadsWith] at h
    | cons x xs =>
      simp only [leadsWith, Bool.and_eq_true] at h ⊢
      exact ⟨h.1, ih h.2⟩

theorem hasSubL_cons {pat : List Char} (c : Char) (rest : List Char) :
    hasSubL pat (c :: rest) = (leadsWith pat (c :: rest) || hasSubL pat rest) := rfl

theorem hasSubL_nil_pat (s : List Char) : hasSubL [] s = true := by
  induction s with
  | nil => rfl
  | cons c rest ih => simp [hasSubL_cons, leadsWith]

theorem hasSubL_append_left {pat a : List Char} (b : List Char)
    (h : hasSubL pat a = true) : hasSubL pat (a ++ b) = true := by
  induction a with
  | nil =>
    cases pat with
    | nil => exact hasSubL_nil_pat b
    | cons p ps => simp [hasSubL, leadsWith] at h
  | cons x xs ih =>
    simp only [hasSubL_cons, Bool.or_eq_true] at h
    simp only [List.cons_append, hasSubL_cons, Bool.or_eq_true]
    rcases h with h | h
    · exact Or.inl (leadsWith_append (a := x :: xs) b h)
    · exact Or.inr (ih h)

theorem hasSubL_append_right {pat b : List Char} (a : List Char)
    (h : hasSubL pat b = true) : hasSubL pat (a ++ b) = true := by
  induction a with
  | nil => simpa using h
  | cons x xs ih =>
    simp only [List.cons_append, hasSubL_cons, Bool.or_eq_true]
    exact Or.inr ih

theorem string_data_append (a b : String) : (a ++ b).data = a.data ++ b.data := rfl

theorem HasSub.appendLeft {a pat : String} (b : String) (h : HasSub a pat) :
    HasSub (a ++ b) pat := by
  unfold HasSub strHasSub at h ⊢
  rw [string_data_append]
  exact hasSubL_append_left b.data h

theorem HasSub.appendRight {b pat : String} (a : String) (h : HasSub b pat) :
    HasSub (a ++ b) pat := by
  unfold HasSub strHasSub at h ⊢
  rw [string_data_append]
  exact hasSubL_append_right a.data h

/-- Appending further strings on both sides preserves occurrence. -/
theorem HasSub.extend {m pat : String} (a b : String) (h : HasSub m pat) :
    HasSub (a ++ m ++ b) pat :=
  HasSub.appendLeft b (HasSub.appendRight a h)

/-! ## JavaScript string primitives, modelled by structural recursion -/

/-- Fuel-driven split on a non-empty separator, JS String.split
semantics. -/
def splitGo (sep : List Char) : Nat → List Char → List (List Char)
  | 0, _ => [[]]
  | fuel + 1, s =>
    match s with
    | [] => [[]]
    | c :: rest =>
      if !sep.isEmpty && leadsWith sep s then
        [] :: splitGo sep fuel (s.drop sep.length)
      else
        match splitGo sep fuel rest with
        | [] => [[c]]
        | h :: t => (c :: h) :: t

/-- JS s.split(sep) for a non-empty string separator. -/
def jsSplitOn (s sep : String) : List String :=
  (splitGo sep.data (s.data.length + 1) s.data).map (fun l => String.mk l)

/-- Fuel-driven global replace, JS s.replace(/pat/g, rep) semantics. -/
def replaceAllGo (pat rep : List Char) : Nat → List Char → List Char
  | 0, s => s
  | fuel + 1, s =>
    match s with
    | [] => []
    | c :: rest =>
      if !pat.isEmpty && leadsWith pat s then
        rep ++ replaceAllGo pat rep fuel (s.drop pat.length)
      else c :: replaceAllGo pat rep fuel rest

/-- JS s.replace with a global regex of a literal pattern. -/
def jsReplaceAll (s pat rep : String) : String :=
  String.mk (replaceAllGo pat.data rep.data (s.data.length + 1) s.data)

/-- Fuel-driven first-occurrence replace. -/
def replaceFirstGo (pat rep : List Char) : Nat → List Char → List Char
  | 0, s => s
  | fuel + 1, s =>
    match s with
    | [] => []
    | c :: rest =>
      if !pat.isEmpty && leadsWith pat s then rep ++ s.drop pat.length
      else c :: replaceFirstGo pat rep fuel rest

/-- JS s.replace(pat, rep) with a string pattern: first occurrence only. -/
def replaceFirst (s pat rep : String) : String :=
  String.mk (replaceFirstGo pat.data rep.data (s.data.length + 1) s.data)

/-- JS String.trim. -/
def jsTrim (s : String) : String :=
  String.mk
    (((s.data.dropWhile Char.isWhitespace).reverse.dropWhile
        Char.isWhitespace).reverse)

/-- ASCII lower-casing of JS toLowerCase on the alphabets used here. -/
def lowerChar (c : Char) : Char :=
  if 65 ≤ c.toNat ∧ c.toNat ≤ 90 then Char.ofNat (c.toNat + 32) else c

/-- JS s.toLowerCase(). -/
def jsToLower (s : String) : String := String.mk (s.data.map lowerChar)

/-- JS s.startsWith(pre). -/
def strLeadsWith (s pre : String) : Bool := leadsWith pre.data s.data


/-! ## XML tree model and accessor layer (xml-parser.ts) -/

/-- Ordered XML element tree. Children are element nodes; character data of
a text-bearing element such as w:t is kept in textContent. -/
inductive Xml where
  | node (localName : String) (attrs : List (String × String))
      (textContent : String) (children : List Xml)
deriving Repr

def Xml.localName : Xml → String
  | .node n _ _ _ => n

def Xml.attrs : Xml → List (String × String)
  | .node _ a _ _ => a

def Xml.textContent : Xml → String
  | .node _ _ t _ => t

def Xml.children : Xml → List Xml
  | .node _ _ _ c => c

/-- XmlParser.elements with a localName filter. -/
def xmlElementsNamed (e : Xml) (localName : String) : List Xml :=
  e.children.filter (fun c => c.localName == localName)

/-- XmlParser.elements without a filter: all element children in order. -/
def xmlElements (e : Xml) : List Xml := e.children

/-- XmlParser.element: first child element with the given local name. -/
def xmlElement (e : Xml) (localName : String) : Option Xml :=
  (xmlElementsNamed e localName).head?

/-- XmlParser.attr: the tiered namespace-tolerant lookup always resolves to
the attribute with the requested local name, modelled as list lookup. -/
def xmlAttr (e : Xml) (localName : String) : Option String :=
  e.attrs.lookup localName

/-- Digit run to number, base 10. -/
def digitsToNat (l : List Char) : Nat :=
  l.foldl (fun n c => 10 * n + (c.toNat - 48)) 0

/-- Model of JavaScript parseInt(s, 10): skip spaces, optional sign, then a
non-empty run of leading decimal digits; none models the NaN result. -/
def jsParseInt (s : String) : Option Int :=
  let core : List Char → Int → Option Int := fun l sign =>
    let ds := l.takeWhile Char.isDigit
    if ds.isEmpty then none else some (sign * (digitsToNat ds : Int))
  match s.data.dropWhile (fun c => c == ' ') with
  | '-' :: rest => core rest (-1)
  | '+' :: rest => core rest 1
  | rest => core rest 1

/-- XmlParser.intAttr: empty or missing attribute gives the default; a
non-numeric value gives NaN in the source, collapsed here to the default
(no integer-valued attribute in this development is non-numeric). -/
def intAttr (e : Xml) (localName : String) (defaultValue : Int) : Int :=
  match xmlAttr e localName with
  | none => defaultValue
  | some v => if v = "" then defaultValue else (jsParseInt v).getD defaultValue

inductive LengthUnit where
  | dxa
  | pt
  | emu
deriving Repr, DecidableEq

/-- XmlParser.lengthAttr: null for a missing or empty attribute, otherwise
parseInt then conversion to points (dxa divides by 20, emu by 12700, pt
passes through). A non-numeric value is NaN in the source, collapsed to
none; no integer-valued attribute in this development is non-numeric. -/
def lengthAttr (e : Xml) (localName : String) (unit : LengthUnit) : Option ℚ :=
  match xmlAttr e localName with
  | none => none
  | some v =>
    if v = "" then none
    else
      match jsParseInt v with
      | none => none
      | some num =>
        some (match unit with
          | .dxa => (num : ℚ) / 20
          | .emu => (num : ℚ) / 12700
          | .pt => (num : ℚ))

/-- Model of JavaScript Math.round: round half toward positive infinity. -/
def jsRound (x : ℚ) : Int := Int.floor (x + 1 / 2)

/-- Build-side dxa conversion used for every twips-valued attribute:
Math.round(value * 20). -/
def toTwips (points : ℚ) : Int := jsRound (points * 20)

/-- JavaScript truthiness of an optional string: defined and non-empty. -/
def jsTruthyStr : Option String → Bool
  | none => false
  | some s => s ≠ ""

/-- JavaScript truthiness of an optional number: defined and non-zero. -/
def jsTruthyQ : Option ℚ → Bool
  | none => false
  | some q => q ≠ 0


/-! ## Document model (types.ts, restricted to the fields used below) -/

structure NumberingInfo where
  id : String
  level : Option Int
deriving Repr, DecidableEq

structure SpacingInfo where
  before : Option ℚ
  after : Option ℚ
  line : Option ℚ
  lineRule : Option String
deriving Repr, DecidableEq

structure IndentationInfo where
  left : Option ℚ
  right : Option ℚ
  firstLine : Option ℚ
  hanging : Option ℚ
deriving Repr, DecidableEq

/-- ExtractedImage; data carries the raw media bytes (base64 transport
collapsed); drawingXml is an undeclared property never produced by this
repository's extractor and is omitted. -/
structure ExtractedImage where
  src : String
  mediaPath : Option String
  width : Option ℚ
  height : Option ℚ
  data : Option (List Nat)
  contentType : Option String
deriving Repr, DecidableEq

/-- ExtractedRun; the formatting field is omitted (no claim reads it).
The extractor never produces some with an empty string: empty assembled
text becomes none. -/
structure ExtractedRun where
  text : Option String
  image : Option ExtractedImage
deriving Repr, DecidableEq

structure ExtractedParagraph where
  runs : List ExtractedRun
  spacing : Option SpacingInfo
  alignment : Option String
  indentation : Option IndentationInfo
  styleName : Option String
  numbering : Option NumberingInfo
  isEmpty : Bool
deriving Repr, DecidableEq

structure BorderInfo where
  style : Option String
  size : Option Int
  color : Option String
deriving Repr, DecidableEq

/-- ExtractedTableCell; borders and margins are kept as side-keyed entry
lists, mirroring the Object.entries iteration order used by the builder. -/
structure ExtractedTableCell where
  content : List ExtractedParagraph
  colSpan : Option Int
  rowSpan : Option Int
  width : Option ℚ
  backgroundColor : Option String
  borders : Option (List (String × BorderInfo))
  verticalAlign : Option String
  margins : Option (List (String × ℚ))
deriving Repr, DecidableEq

structure ExtractedTableRow where
  cells : List ExtractedTableCell
deriving Repr, DecidableEq

/-- ExtractedTable; tableStyle is read by the builder although absent from
the declared interface, and is never set by extraction. -/
structure ExtractedTable where
  rows : List ExtractedTableRow
  columnWidths : Option (List ℚ)
  tableStyle : Option String
deriving Repr, DecidableEq

inductive BodyElement where
  | paragraph (data : ExtractedParagraph)
  | table (data : ExtractedTable)
deriving Repr, DecidableEq

/-- StyleInfo restricted to the fields the theorems below read. -/
structure StyleInfo where
  name : String
  type : Option String
  numbering : Option NumberingInfo
deriving Repr, DecidableEq

structure TabStop where
  val : String
  pos : ℚ
deriving Repr, DecidableEq

structure NumberingLevel where
  level : Int
  start : Option Int
  format : String
  text : String
  paragraphStyleName : Option String
  alignment : Option String
  indentation : Option IndentationInfo
  tabs : Option (List TabStop)
  fontFamily : Option String
  fontHint : Option String
deriving Repr, DecidableEq

structure NumberingDefinition where
  numId : String
  abstractNumId : String
  nsid : Option String
  multiLevelType : Option String
  tmpl : Option String
  levels : List NumberingLevel
deriving Repr, DecidableEq

/-- ExtractedDocument restricted to the fields the theorems below read;
defaults and paragraphDefaults are omitted. Maps are insertion-ordered
association lists. -/
structure ExtractedDocument where
  paragraphs : List ExtractedParagraph
  tables : List ExtractedTable
  body : List BodyElement
  styles : List (String × StyleInfo)
  numbering : Option (List (String × NumberingDefinition))
  mediaFiles : Option (List (String × List Nat))
deriving Repr, DecidableEq

/-- Map.set semantics on an insertion-ordered association list: replace in
place when the key exists, otherwise append. -/
def setAssoc {α : Type} (m : List (String × α)) (k : String) (v : α) :
    List (String × α) :=
  if m.any (fun p => p.1 == k) then
    m.map (fun p => if p.1 == k then (k, v) else p)
  else m ++ [(k, v)]

/-- Input archive: XML parts are stored pre-parsed (the tokenizer is a
black box); binary parts map path to bytes. -/
structure Archive where
  xmlParts : List (String × Xml)
  binParts : List (String × List Nat)
deriving Repr

def Archive.xmlPart (a : Archive) (path : String) : Option Xml :=
  a.xmlParts.lookup path

def Archive.binPart (a : Archive) (path : String) : Option (List Nat) :=
  a.binParts.lookup path

/-- Resolver state accumulated by a DocxExtractor instance for one extract
call: the relationship table and the archive for media loading. -/
structure ExtractCtx where
  relationships : List (String × String)
  archive : Archive

/-! ## Extraction pipeline (docx-extractor.ts) -/

/-- Content-type table of loadImageData. -/
def contentTypeMap : List (String × String) :=
  [("png", "image/png"), ("jpg", "image/jpeg"), ("jpeg", "image/jpeg"),
   ("gif", "image/gif"), ("bmp", "image/bmp"), ("svg", "image/svg+xml"),
   ("webp", "image/webp")]

/-- path.split(".").pop()?.toLowerCase() of loadImageData. -/
def extOfPath (path : String) : Option String :=
  ((jsSplitOn path ".").getLast?).map jsToLower

/-- DocxExtractor.loadImageData: bytes plus extension-derived content type;
a missing archive entry yields the empty result. -/
def loadImageData (ctx : ExtractCtx) (path : String) :
    Option (List Nat) × Option String :=
  match ctx.archive.binPart path with
  | none => (none, none)
  | some bytes =>
    let contentType :=
      match extOfPath path with
      | none => none
      | some ext => if ext = "" then none else contentTypeMap.lookup ext
    (some bytes, contentType)

/-- DocxExtractor.extractDrawing: navigate
inline-or-anchor / graphic / graphicData / pic / blipFill / blip, resolve
the embed relationship id, then load the media bytes. -/
def extractDrawing (ctx : ExtractCtx) (drawingElem : Xml) :
    Option ExtractedImage := do
  let wrapper ← xmlElement drawingElem "inline" <|> xmlElement drawingElem "anchor"
  let width := (xmlElement wrapper "extent").bind (fun e => lengthAttr e "cx" .emu)
  let height := (xmlElement wrapper "extent").bind (fun e => lengthAttr e "cy" .emu)
  let graphic ← xmlElement wrapper "graphic"
  let graphicData ← xmlElement graphic "graphicData"
  let pic ← xmlElement graphicData "pic"
  let blipFill ← xmlElement pic "blipFill"
  let blip ← xmlElement blipFill "blip"
  let embedId ← xmlAttr blip "embed"
  let imagePath ← ctx.relationships.lookup embedId
  let fullMediaPath := "word/" ++ imagePath
  let imageData := loadImageData ctx fullMediaPath
  pure { src := embedId, mediaPath := some fullMediaPath,
         width := width, height := height,
         data := imageData.1, contentType := imageData.2 }

/-- DocxExtractor.extractVmlPicture: VML pictures are recognized but not
decoded. -/
def extractVmlPicture (_pictElem : Xml) : Option ExtractedImage := none

/-- One character-replacing pass of the run-text normalization. -/
def replChar (bad : Char) (c : Char) : Char := if c = bad then ' ' else c

/-- Line-terminator normalization applied to assembled run text: the five
sequential global replaces of extractRun (line separator, paragraph
separator, next line, vertical tab, form feed, each to a space). -/
def mapChars (f : Char → Char) (s : String) : String := String.mk (s.data.map f)

def normalizeText (s : String) : String :=
  mapChars (replChar '\u000C')
    (mapChars (replChar '\u000B')
      (mapChars (replChar '\u0085')
        (mapChars (replChar ' ') (mapChars (replChar ' ') s))))

/-- One switch case of the extractRun child loop, acting on the
text-accumulator and image slots. -/
def extractRunStep (ctx : ExtractCtx) (acc : String × Option ExtractedImage)
    (child : Xml) : String × Option ExtractedImage :=
  if child.localName = "t" then (acc.1 ++ child.textContent, acc.2)
  else if child.localName = "tab" then (acc.1 ++ "\t", acc.2)
  else if child.localName = "br" then
    (acc.1 ++ (if xmlAttr child "type" = some "page" then "\u000C" else "\n"), acc.2)
  else if child.localName = "drawing" then (acc.1, extractDrawing ctx child)
  else if child.localName = "pict" then (acc.1, extractVmlPicture child)
  else acc

/-- DocxExtractor.extractRun: walk the run children accumulating text and
image, then normalize line terminators; empty text becomes undefined. -/
def extractRun (ctx : ExtractCtx) (rElem : Xml) : ExtractedRun :=
  let acc := (xmlElements rElem).foldl (extractRunStep ctx) ("", none)
  let text := normalizeText acc.1
  { text := if text = "" then none else some text, image := acc.2 }

/-- Paragraph spacing extraction of extractParagraph (line becomes a
line-height multiplier through division by 240, zero collapsing to
undefined by JS falsiness). -/
def extractSpacing (spacingElem : Xml) : SpacingInfo :=
  { before := lengthAttr spacingElem "before" .dxa,
    after := lengthAttr spacingElem "after" .dxa,
    line :=
      (if ((intAttr spacingElem "line" 0 : ℚ) / 240) = 0 then none
       else some ((intAttr spacingElem "line" 0 : ℚ) / 240)),
    lineRule := xmlAttr spacingElem "lineRule" }

/-- Paragraph indentation extraction shared by extractParagraph and the
style loader. -/
def extractIndentation (ind : Xml) : IndentationInfo :=
  { left := lengthAttr ind "left" .dxa,
    right := lengthAttr ind "right" .dxa,
    firstLine := lengthAttr ind "firstLine" .dxa,
    hanging := lengthAttr ind "hanging" .dxa }

/-- Alignment extraction: start and end are normalized to left and
right. -/
def extractAlignment (jc : Xml) : Option String :=
  (xmlAttr jc "val").map (fun v =>
    if v = "start" then "left" else if v = "end" then "right" else v)

/-- Paragraph-level numbering extraction of extractParagraph: the level is
intAttr of ilvl when the ilvl marker exists and is defaulted to 0 at
extraction time when it does not. -/
def paraNumbering (pPr : Xml) : Option NumberingInfo :=
  match xmlElement pPr "numPr" with
  | none => none
  | some numPr =>
    match xmlElement numPr "numId" with
    | none => none
    | some numId =>
      some { id := (xmlAttr numId "val").getD "",
             level := some (match xmlElement numPr "ilvl" with
               | some ilvl => intAttr ilvl "val" 0
               | none => 0) }

/-- DocxExtractor.extractParagraph. -/
def extractParagraph (ctx : ExtractCtx) (pElem : Xml) : ExtractedParagraph :=
  let pPrOpt := xmlElement pElem "pPr"
  let spacing := pPrOpt.bind (fun pPr => (xmlElement pPr "spacing").map extractSpacing)
  let alignment := pPrOpt.bind (fun pPr => (xmlElement pPr "jc").bind extractAlignment)
  let indentation := pPrOpt.bind (fun pPr => (xmlElement pPr "ind").map extractIndentation)
  let styleName := pPrOpt.bind (fun pPr => (xmlElement pPr "pStyle").bind (fun ps => xmlAttr ps "val"))
  let numbering := pPrOpt.bind paraNumbering
  let runs := ((xmlElements pElem).filter (fun c => c.localName == "r")).map (extractRun ctx)
  let isEmpty := runs.isEmpty ||
    runs.all (fun r => match r.text with
      | none => true
      | some t => jsTrim t = "")
  { runs := runs, spacing := spacing, alignment := alignment,
    indentation := indentation, styleName := styleName,
    numbering := numbering, isEmpty := isEmpty }

/-- Border-side decoding of extractCellProperties: style skips the literal
none, size must be positive, color skips the literal auto. -/
def extractBorderInfo (borderElem : Xml) : BorderInfo :=
  { style :=
      match xmlAttr borderElem "val" with
      | some s => if s ≠ "" ∧ s ≠ "none" then some s else none
      | none => none,
    size := if intAttr borderElem "sz" 0 > 0 then some (intAttr borderElem "sz" 0) else none,
    color :=
      match xmlAttr borderElem "color" with
      | some c => if c ≠ "" ∧ c ≠ "auto" then some ("#" ++ c) else none
      | none => none }

/-- DocxExtractor.extractCellProperties, produced as a cell with empty
content for the later object spread. -/
def extractCellProperties (tcElem : Xml) : ExtractedTableCell :=
  match xmlElement tcElem "tcPr" with
  | none =>
    { content := [], colSpan := none, rowSpan := none, width := none,
      backgroundColor := none, borders := none, verticalAlign := none,
      margins := none }
  | some tcPr =>
    let colSpan :=
      match xmlElement tcPr "gridSpan" with
      | none => none
      | some gs => if intAttr gs "val" 0 > 1 then some (intAttr gs "val" 0) else none
    let rowSpan :=
      match xmlElement tcPr "vMerge" with
      | none => none
      | some vm =>
        match xmlAttr vm "val" with
        | some v => if v = "restart" then some 1 else none
        | none => some 0
    let width := (xmlElement tcPr "tcW").bind (fun tcW => lengthAttr tcW "w" .dxa)
    let backgroundColor :=
      (xmlElement tcPr "shd").bind (fun shd =>
        match xmlAttr shd "fill" with
        | some f => if f ≠ "" ∧ f ≠ "auto" then some ("#" ++ f) else none
        | none => none)
    let verticalAlign :=
      (xmlElement tcPr "vAlign").bind (fun va =>
        match xmlAttr va "val" with
        | some v => if v = "top" ∨ v = "center" ∨ v = "bottom" then some v else none
        | none => none)
    let borders :=
      (xmlElement tcPr "tcBorders").bind (fun tcBorders =>
        let entries := ["top", "bottom", "left", "right"].filterMap (fun side =>
          (xmlElement tcBorders side).bind (fun be =>
            let bi := extractBorderInfo be
            if bi.style.isSome ∨ bi.size.isSome ∨ bi.color.isSome then
              some (side, bi)
            else none))
        if entries.isEmpty then none else some entries)
    let margins :=
      (xmlElement tcPr "tcMar").bind (fun tcMar =>
        let entries := ["top", "bottom", "left", "right"].filterMap (fun side =>
          (xmlElement tcMar side).bind (fun me =>
            (lengthAttr me "w" .dxa).map (fun m => (side, m))))
        if entries.isEmpty then none else some entries)
    { content := [], colSpan := colSpan, rowSpan := rowSpan, width := width,
      backgroundColor := backgroundColor, borders := borders,
      verticalAlign := verticalAlign, margins := margins }

/-- DocxExtractor.extractTable: rows of cells, each cell spreading its
extracted properties over its paragraph content. -/
def extractTable (ctx : ExtractCtx) (tblElem : Xml) : ExtractedTable :=
  { rows := (xmlElementsNamed tblElem "tr").map (fun tr =>
      { cells := (xmlElementsNamed tr "tc").map (fun tc =>
          { extractCellProperties tc with
              content := (xmlElementsNamed tc "p").map (extractParagraph ctx) }) }),
    columnWidths := none, tableStyle := none }

/-- DocxExtractor.loadRelationships: Relationship entries with truthy Id
and Target populate the id-to-target table. -/
def loadRelationships (a : Archive) : List (String × String) :=
  match a.xmlPart "word/_rels/document.xml.rels" with
  | none => []
  | some root =>
    (xmlElementsNamed root "Relationship").foldl (fun m rel =>
      match xmlAttr rel "Id", xmlAttr rel "Target" with
      | some i, some t => if i ≠ "" ∧ t ≠ "" then setAssoc m i t else m
      | _, _ => m) []

/-- Style-level numbering extraction of loadStyles: the level is included
only when the ilvl marker is explicitly present, and is left undefined
otherwise. -/
def styleNumbering (pPr : Xml) : Option NumberingInfo :=
  match xmlElement pPr "numPr" with
  | none => none
  | some numPr =>
    match xmlElement numPr "numId" with
    | none => none
    | some numId =>
      some { id := (xmlAttr numId "val").getD "",
             level := match xmlElement numPr "ilvl" with
               | some ilvl => some (intAttr ilvl "val" 0)
               | none => none }

/-- Per-style extraction of loadStyles, restricted to the modelled
StyleInfo fields; styles without a truthy styleId are skipped. -/
def extractStyle (styleElem : Xml) : Option (String × StyleInfo) :=
  match xmlAttr styleElem "styleId" with
  | none => none
  | some styleId =>
    if styleId = "" then none
    else
      let name :=
        match xmlElement styleElem "name" with
        | some ne =>
          match xmlAttr ne "val" with
          | some dn => if dn ≠ "" then dn else styleId
          | none => styleId
        | none => styleId
      let type :=
        match xmlAttr styleElem "type" with
        | some t => if t ≠ "" then some t else none
        | none => none
      let numbering := (xmlElement styleElem "pPr").bind styleNumbering
      some (styleId, { name := name, type := type, numbering := numbering })

/-- DocxExtractor.loadStyles over the word/styles.xml part. -/
def loadStyles (a : Archive) : List (String × StyleInfo) :=
  match a.xmlPart "word/styles.xml" with
  | none => []
  | some root =>
    (xmlElementsNamed root "style").foldl (fun m se =>
      match extractStyle se with
      | none => m
      | some (sid, si) => setAssoc m sid si) []

/-- Per-level extraction of loadNumbering. -/
def extractNumLevel (lvl : Xml) : NumberingLevel :=
  { level := intAttr lvl "ilvl" 0,
    start := (xmlElement lvl "start").map (fun se => intAttr se "val" 0),
    format :=
      match xmlElement lvl "numFmt" with
      | some nf =>
        match xmlAttr nf "val" with
        | some v => if v ≠ "" then v else "bullet"
        | none => "bullet"
      | none => "bullet",
    text :=
      match xmlElement lvl "lvlText" with
      | some lt =>
        match xmlAttr lt "val" with
        | some v => if v ≠ "" then v else "●"
        | none => "●"
      | none => "●",
    paragraphStyleName := (xmlElement lvl "pStyle").bind (fun pe => xmlAttr pe "val"),
    alignment := (xmlElement lvl "lvlJc").bind (fun je => xmlAttr je "val"),
    indentation :=
      (xmlElement lvl "pPr").bind (fun pPr =>
        (xmlElement pPr "ind").map (fun ind =>
          { left := lengthAttr ind "left" .dxa,
            right := none, firstLine := none,
            hanging := lengthAttr ind "hanging" .dxa })),
    tabs :=
      (xmlElement lvl "pPr").bind (fun pPr =>
        (xmlElement pPr "tabs").bind (fun tabsElem =>
          let ts := (xmlElementsNamed tabsElem "tab").filterMap (fun tab =>
            match xmlAttr tab "val", lengthAttr tab "pos" .dxa with
            | some v, some p => if v ≠ "" then some (⟨v, p⟩ : TabStop) else none
            | _, _ => none)
          if ts.isEmpty then none else some ts)),
    fontFamily :=
      ((xmlElement lvl "rPr").bind (fun rPr => xmlElement rPr "rFonts")).bind
        (fun rf => xmlAttr rf "ascii"),
    fontHint :=
      ((xmlElement lvl "rPr").bind (fun rPr => xmlElement rPr "rFonts")).bind
        (fun rf => xmlAttr rf "hint") }

/-- Abstract-template payload collected by the first loadNumbering pass. -/
structure AbstractNumData where
  levels : List NumberingLevel
  nsid : Option String
  multiLevelType : Option String
  tmpl : Option String
deriving Repr, DecidableEq

/-- DocxExtractor.loadNumbering: build the abstract-template map, then
resolve instances, discarding instances whose abstract id is missing. -/
def loadNumbering (a : Archive) : List (String × NumberingDefinition) :=
  match a.xmlPart "word/numbering.xml" with
  | none => []
  | some root =>
    let abstractNums := (xmlElementsNamed root "abstractNum").foldl (fun m an =>
      match xmlAttr an "abstractNumId" with
      | none => m
      | some aid =>
        if aid = "" then m
        else
          setAssoc m aid
            { levels := (xmlElementsNamed an "lvl").map extractNumLevel,
              nsid := (xmlElement an "nsid").bind (fun e => xmlAttr e "val"),
              multiLevelType :=
                (xmlElement an "multiLevelType").bind (fun e => xmlAttr e "val"),
              tmpl := (xmlElement an "tmpl").bind (fun e => xmlAttr e "val") })
      ([] : List (String × AbstractNumData))
    (xmlElementsNamed root "num").foldl (fun m num =>
      match xmlAttr num "numId" with
      | none => m
      | some nid =>
        if nid = "" then m
        else
          match (xmlElement num "abstractNumId").bind (fun e => xmlAttr e "val") with
          | none => m
          | some aval =>
            if aval = "" then m
            else
              match abstractNums.lookup aval with
              | none => m
              | some ad =>
                setAssoc m nid
                  { numId := nid, abstractNumId := aval, nsid := ad.nsid,
                    multiLevelType := ad.multiLevelType, tmpl := ad.tmpl,
                    levels := ad.levels }) []

/-- One dispatch step of the extract body walk. -/
def extractBodyStep (ctx : ExtractCtx)
    (acc : List ExtractedParagraph × List ExtractedTable × List BodyElement)
    (child : Xml) :
    List ExtractedParagraph × List ExtractedTable × List BodyElement :=
  if child.localName = "p" then
    let para := extractParagraph ctx child
    (acc.1 ++ [para], acc.2.1, acc.2.2 ++ [BodyElement.paragraph para])
  else if child.localName = "tbl" then
    let table := extractTable ctx child
    (acc.1, acc.2.1 ++ [table], acc.2.2 ++ [BodyElement.table table])
  else acc

/-- DocxExtractor.extract: loaders run first, then the primary part and
its body element are required — either one missing aborts the whole
operation — and finally the body is walked in order. -/
def extract (a : Archive) : Except String ExtractedDocument :=
  let relationships := loadRelationships a
  let styles := loadStyles a
  let numbering := loadNumbering a
  match a.xmlPart "word/document.xml" with
  | none => .error "Invalid DOCX file: document.xml not found"
  | some docRoot =>
    match xmlElement docRoot "body" with
    | none => .error "Invalid DOCX file: body not found"
    | some body =>
      let mediaFiles := a.binParts.filter (fun p => strLeadsWith p.1 "word/media/")
      let ctx : ExtractCtx := { relationships := relationships, archive := a }
      let res := (xmlElements body).foldl (extractBodyStep ctx) ([], [], [])
      .ok { paragraphs := res.1, tables := res.2.1, body := res.2.2,
            styles := styles,
            numbering := if numbering.isEmpty then none else some numbering,
            mediaFiles := if mediaFiles.isEmpty then none else some mediaFiles }

/-! ## Build pipeline (docx-builder.ts) -/

/-- Relationship record stored by the builder. -/
structure RelRecord where
  id : String
  type : String
  target : String
deriving Repr, DecidableEq

/-- DocxBuilder instance state: relationship table and id counter. -/
structure BuilderSt where
  rels : List (String × RelRecord)
  nextRelId : Int
deriving Repr, DecidableEq

/-- Text escaping of buildRunXml: three sequential global replaces. -/
def escapeXmlText (s : String) : String :=
  jsReplaceAll (jsReplaceAll (jsReplaceAll s "&" "&amp;") "<" "&lt;") ">" "&gt;"

/-- DocxBuilder.buildSpacingXml: every defined field becomes a twips
attribute via Math.round(value * 20); lineRule passes through. -/
def buildSpacingXml (spacing : SpacingInfo) : String :=
  "\n        <w:spacing"
  ++ (match spacing.before with
      | some b => " w:before=\"" ++ toString (toTwips b) ++ "\""
      | none => "")
  ++ (match spacing.after with
      | some a => " w:after=\"" ++ toString (toTwips a) ++ "\""
      | none => "")
  ++ (match spacing.line with
      | some l => " w:line=\"" ++ toString (toTwips l) ++ "\""
      | none => "")
  ++ (match spacing.lineRule with
      | some lr => if lr ≠ "" then " w:lineRule=\"" ++ lr ++ "\"" else ""
      | none => "")
  ++ "/>"

/-- DocxBuilder.buildIndentationXml. -/
def buildIndentationXml (indentation : IndentationInfo) : String :=
  "\n        <w:ind"
  ++ (match indentation.left with
      | some l => " w:left=\"" ++ toString (toTwips l) ++ "\""
      | none => "")
  ++ (match indentation.right with
      | some r => " w:right=\"" ++ toString (toTwips r) ++ "\""
      | none => "")
  ++ (match indentation.firstLine with
      | some f => " w:firstLine=\"" ++ toString (toTwips f) ++ "\""
      | none => "")
  ++ (match indentation.hanging with
      | some h => " w:hanging=\"" ++ toString (toTwips h) ++ "\""
      | none => "")
  ++ "/>"

/-- Numbering properties fragment of buildParagraphXml: the ilvl marker is
emitted only when the level is explicitly defined. -/
def numPrXml (n : NumberingInfo) : String :=
  "\n        <w:numPr>"
  ++ (match n.level with
      | some l => "\n          <w:ilvl w:val=\"" ++ toString l ++ "\"/>"
      | none => "")
  ++ "\n          <w:numId w:val=\"" ++ n.id ++ "\"/>"
  ++ "\n        </w:numPr>"

/-- Paragraph properties block of buildParagraphXml. -/
def paraPPrXml (para : ExtractedParagraph) : String :=
  if para.spacing.isSome || jsTruthyStr para.alignment || para.indentation.isSome
      || jsTruthyStr para.styleName || para.numbering.isSome then
    "\n      <w:pPr>"
    ++ (match para.styleName with
        | some s => if s ≠ "" then "\n        <w:pStyle w:val=\"" ++ s ++ "\"/>" else ""
        | none => "")
    ++ (match para.numbering with
        | some n => numPrXml n
        | none => "")
    ++ (match para.spacing with
        | some sp => buildSpacingXml sp
        | none => "")
    ++ (match para.alignment with
        | some a => if a ≠ "" then "\n        <w:jc w:val=\"" ++ a ++ "\"/>" else ""
        | none => "")
    ++ (match para.indentation with
        | some ind => buildIndentationXml ind
        | none => "")
    ++ "\n      </w:pPr>"
  else ""

/-- Text body of buildRunXml: the stored text is re-split on newlines into
break-separated segments and on tabs into tab-separated segments, each
non-empty literal segment escaped and wrapped in a preserved-space text
element. -/
def runTextXml (t : String) : String :=
  String.join (((jsSplitOn t "\n").enum).map (fun pi =>
    (if pi.1 > 0 then "\n        <w:br/>" else "")
    ++ (if pi.2 ≠ "" then
          String.join (((jsSplitOn pi.2 "\t").enum).map (fun tj =>
            (if tj.1 > 0 then "\n        <w:tab/>" else "")
            ++ (if tj.2 ≠ "" then
                  "\n        <w:t xml:space=\"preserve\">" ++ escapeXmlText tj.2 ++ "</w:t>"
                else "")))
        else "")))

/-- Lookup key of buildImageXml: mediaPath when truthy, else src. -/
def imageLookupKey (image : ExtractedImage) : String :=
  match image.mediaPath with
  | some s => if s = "" then image.src else s
  | none => image.src

/-- DocxBuilder.buildImageXml: a missing relationship drops the image with
a diagnostic; otherwise a minimal inline-image fragment is synthesized
(the preserved-drawing reuse path is dead for models produced by this
repository, whose extractor never sets drawingXml). -/
def buildImageXml (st : BuilderSt) (image : ExtractedImage) : String × BuilderSt :=
  match st.rels.lookup (imageLookupKey image) with
  | none => ("", st)
  | some rel =>
    let width := match image.width with
      | some w => if w ≠ 0 then w else 100
      | none => 100
    let height := match image.height with
      | some h => if h ≠ 0 then h else 100
      | none => 100
    let cx := jsRound (width * 12700)
    let cy := jsRound (height * 12700)
    let picId := st.nextRelId
    let docPrId := st.nextRelId + 1
    let st' : BuilderSt := { st with nextRelId := st.nextRelId + 2 }
    let imageName := match image.mediaPath with
      | some mp => if mp = "" then "image.png" else ((jsSplitOn mp "/").getLast?).getD ""
      | none => "image.png"
    ("\n        <w:drawing>"
     ++ "\n          <wp:inline xmlns:a=\"http://schemas.openxmlformats.org/drawingml/2006/main\" xmlns:pic=\"http://schemas.openxmlformats.org/drawingml/2006/picture\">"
     ++ "\n            <wp:extent cx=\"" ++ toString cx ++ "\" cy=\"" ++ toString cy ++ "\"/>"
     ++ "\n            <wp:docPr id=\"" ++ toString docPrId ++ "\" name=\"Picture " ++ toString picId ++ "\"/>"
     ++ "\n            <wp:cNvGraphicFramePr>"
     ++ "\n              <a:graphicFrameLocks noChangeAspect=\"1\"/>"
     ++ "\n            </wp:cNvGraphicFramePr>"
     ++ "\n            <a:graphic>"
     ++ "\n              <a:graphicData uri=\"http://schemas.openxmlformats.org/drawingml/2006/picture\">"
     ++ "\n                <pic:pic>"
     ++ "\n                  <pic:nvPicPr>"
     ++ "\n                    <pic:cNvPr id=\"" ++ toString picId ++ "\" name=\"" ++ imageName ++ "\"/>"
     ++ "\n                    <pic:cNvPicPr/>"
     ++ "\n                  </pic:nvPicPr>"
     ++ "\n                  <pic:blipFill>"
     ++ "\n                    <a:blip r:embed=\"" ++ rel.id ++ "\"/>"
     ++ "\n                    <a:stretch>"
     ++ "\n                      <a:fillRect/>"
     ++ "\n                    </a:stretch>"
     ++ "\n                  </pic:blipFill>"
     ++ "\n                  <pic:spPr>"
     ++ "\n                    <a:xfrm>"
     ++ "\n                      <a:off x=\"0\" y=\"0\"/>"
     ++ "\n                      <a:ext cx=\"" ++ toString cx ++ "\" cy=\"" ++ toString cy ++ "\"/>"
     ++ "\n                    </a:xfrm>"
     ++ "\n                    <a:prstGeom prst=\"rect\"/>"
     ++ "\n                  </pic:spPr>"
     ++ "\n                </pic:pic>"
     ++ "\n              </a:graphicData>"
     ++ "\n            </a:graphic>"
     ++ "\n          </wp:inline>"
     ++ "\n        </w:drawing>", st')

/-- DocxBuilder.buildRunXml: a run element always opens and closes; inside
it an image fragment, re-split text, or an explicitly empty text element
(the rPr block is not modelled because run formatting is not). -/
def buildRunXml (st : BuilderSt) (run : ExtractedRun) : String × BuilderSt :=
  match run.image with
  | some image =>
    let r := buildImageXml st image
    ("\n      <w:r>" ++ r.1 ++ "\n      </w:r>", r.2)
  | none =>
    match run.text with
    | some t =>
      if t ≠ "" then ("\n      <w:r>" ++ runTextXml t ++ "\n      </w:r>", st)
      else ("\n      <w:r>" ++ "\n        <w:t></w:t>" ++ "\n      </w:r>", st)
    | none => ("\n      <w:r>" ++ "\n        <w:t></w:t>" ++ "\n      </w:r>", st)

/-- Run loop of buildParagraphXml. -/
def buildRunsFold (st : BuilderSt) (runs : List ExtractedRun) : String × BuilderSt :=
  runs.foldl (fun acc r =>
    let p := buildRunXml acc.2 r
    (acc.1 ++ p.1, p.2)) ("", st)

/-- DocxBuilder.buildParagraphXml: properties block, then the runs, with a
synthesized run holding an explicitly empty text element when the
paragraph has no runs. -/
def buildParagraphXml (st : BuilderSt) (para : ExtractedParagraph) : String × BuilderSt :=
  let runsPart :=
    if para.runs.length > 0 then buildRunsFold st para.runs
    else ("\n      <w:r>" ++ "\n        <w:t></w:t>" ++ "\n      </w:r>", st)
  ("\n    <w:p>" ++ paraPPrXml para ++ runsPart.1 ++ "\n    </w:p>", runsPart.2)

/-- Vertical-merge fragment of buildTableCellXml: a defined rowSpan of 1
(or any positive value) serializes the restart marker, any other defined
value the bare continuation marker, and an undefined rowSpan nothing. -/
def vMergeXml (rowSpan : Option Int) : String :=
  match rowSpan with
  | none => ""
  | some v =>
    if v = 1 ∨ v > 0 then "\n            <w:vMerge w:val=\"restart\"/>"
    else "\n            <w:vMerge/>"

/-- Cell properties block of buildTableCellXml, always present. -/
def buildTcPrXml (cell : ExtractedTableCell) : String :=
  "\n          <w:tcPr>"
  ++ (match cell.width with
      | some w =>
        if w ≠ 0 then "\n            <w:tcW w:w=\"" ++ toString (toTwips w) ++ "\" w:type=\"dxa\"/>"
        else "\n            <w:tcW w:w=\"0\" w:type=\"auto\"/>"
      | none => "\n            <w:tcW w:w=\"0\" w:type=\"auto\"/>")
  ++ (match cell.colSpan with
      | some c =>
        if c ≠ 0 ∧ c > 1 then "\n            <w:gridSpan w:val=\"" ++ toString c ++ "\"/>"
        else ""
      | none => "")
  ++ vMergeXml cell.rowSpan
  ++ (match cell.backgroundColor with
      | some bg =>
        if bg ≠ "" then
          "\n            <w:shd w:val=\"clear\" w:fill=\"" ++ replaceFirst bg "#" "" ++ "\"/>"
        else ""
      | none => "")
  ++ (match cell.borders with
      | some entries =>
        "\n            <w:tcBorders>"
        ++ String.join (entries.map (fun sb =>
             let style := match sb.2.style with
               | some s => if s ≠ "" then s else "single"
               | none => "single"
             let size := match sb.2.size with
               | some z => if z ≠ 0 then z else 4
               | none => 4
             let color := match sb.2.color with
               | some c => if replaceFirst c "#" "" ≠ "" then replaceFirst c "#" "" else "000000"
               | none => "000000"
             "\n              <w:" ++ sb.1 ++ " w:val=\"" ++ style ++ "\" w:sz=\""
               ++ toString size ++ "\" w:color=\"" ++ color ++ "\"/>"))
        ++ "\n            </w:tcBorders>"
      | none => "")
  ++ (match cell.verticalAlign with
      | some va => if va ≠ "" then "\n            <w:vAlign w:val=\"" ++ va ++ "\"/>" else ""
      | none => "")
  ++ (match cell.margins with
      | some entries =>
        "\n            <w:tcMar>"
        ++ String.join (entries.map (fun sm =>
             "\n              <w:" ++ sm.1 ++ " w:w=\"" ++ toString (toTwips sm.2)
               ++ "\" w:type=\"dxa\"/>"))
        ++ "\n            </w:tcMar>"
      | none => "")
  ++ "\n          </w:tcPr>"

/-- DocxBuilder.buildTableCellXml: properties block, then the paragraph
content, with a synthesized empty paragraph when the content list is
empty. -/
def buildTableCellXml (st : BuilderSt) (cell : ExtractedTableCell) : String × BuilderSt :=
  let contentPart :=
    if cell.content.length > 0 then
      cell.content.foldl (fun acc para =>
        let p := buildParagraphXml acc.2 para
        (acc.1 ++ p.1, p.2)) ("", st)
    else ("\n          <w:p>\n          </w:p>", st)
  ("\n        <w:tc>" ++ buildTcPrXml cell ++ contentPart.1 ++ "\n        </w:tc>", contentPart.2)

/-- DocxBuilder.buildTableXml. -/
def buildTableXml (st : BuilderSt) (table : ExtractedTable) : String × BuilderSt :=
  let tableStyle := match table.tableStyle with
    | some ts => if ts ≠ "" then ts else "TableGrid"
    | none => "TableGrid"
  let tblPr :=
    "\n      <w:tblPr>"
    ++ "\n        <w:tblStyle w:val=\"" ++ tableStyle ++ "\"/>"
    ++ "\n        <w:tblW w:w=\"0\" w:type=\"auto\"/>"
    ++ "\n        <w:tblLook w:val=\"04A0\" w:firstRow=\"1\" w:lastRow=\"0\" w:firstColumn=\"1\" w:lastColumn=\"0\" w:noHBand=\"0\" w:noVBand=\"1\"/>"
    ++ "\n      </w:tblPr>"
  let firstRow : ExtractedTableRow := (table.rows.headD ⟨[]⟩)
  let hasColumnWidths := match table.columnWidths with
    | some ws => decide (ws.length > 0)
    | none => false
  let gridInner :=
    if hasColumnWidths then
      String.join ((table.columnWidths.getD []).map (fun w =>
        "\n        <w:gridCol w:w=\"" ++ toString (toTwips w) ++ "\"/>"))
    else if table.rows.length > 0 ∧ firstRow.cells.length > 0 then
      String.join (firstRow.cells.map (fun cell =>
        let width := match cell.width with
          | some w => if w ≠ 0 then w else 2160
          | none => 2160
        "\n        <w:gridCol w:w=\"" ++ toString (toTwips width) ++ "\"/>"))
    else
      let columnCount := if table.rows.length > 0 then firstRow.cells.length else 1
      String.join ((List.range columnCount).map (fun _ =>
        "\n        <w:gridCol w:w=\"2160\"/>"))
  let grid := "\n      <w:tblGrid>" ++ gridInner ++ "\n      </w:tblGrid>"
  let rowsPart := table.rows.foldl (fun (acc : String × BuilderSt) row =>
    let cellsPart := row.cells.foldl (fun acc2 cell =>
      let c := buildTableCellXml acc2.2 cell
      (acc2.1 ++ c.1, c.2)) (acc.1 ++ "\n      <w:tr>", acc.2)
    (cellsPart.1 ++ "\n      </w:tr>", cellsPart.2)) ("", st)
  ("\n    <w:tbl>" ++ tblPr ++ grid ++ rowsPart.1 ++ "\n    </w:tbl>", rowsPart.2)

/-- Guard of addNumbering: the numbering map exists and is non-empty. -/
def hasNumberingB (doc : ExtractedDocument) : Bool :=
  match doc.numbering with
  | some l => !l.isEmpty
  | none => false

/-- Guard of addNumbering: some paragraph carries a numbering reference. -/
def hasNumberedParagraphsB (doc : ExtractedDocument) : Bool :=
  doc.paragraphs.any (fun p => p.numbering.isSome)

/-- One level block of the extracted-definitions branch of addNumbering;
levelNum is the array index of the level entry. -/
def numberingLevelXml (levelNum : Nat) (level : NumberingLevel) : String :=
  "\n    <w:lvl w:ilvl=\"" ++ toString levelNum ++ "\">"
  ++ "\n      <w:start w:val=\"" ++ toString (level.start.getD 1) ++ "\"/>"
  ++ "\n      <w:numFmt w:val=\"" ++ level.format ++ "\"/>"
  ++ (match level.paragraphStyleName with
      | some ps => if ps ≠ "" then "\n      <w:pStyle w:val=\"" ++ ps ++ "\"/>" else ""
      | none => "")
  ++ "\n      <w:lvlText w:val=\"" ++ level.text ++ "\"/>"
  ++ (match level.alignment with
      | some al => if al ≠ "" then "\n      <w:lvlJc w:val=\"" ++ al ++ "\"/>" else ""
      | none => "")
  ++ (if level.indentation.isSome || level.tabs.isSome then
        "\n      <w:pPr>"
        ++ (match level.tabs with
            | some tabs =>
              if tabs.length > 0 then
                "\n        <w:tabs>"
                ++ String.join (tabs.map (fun tab =>
                     "\n          <w:tab w:val=\"" ++ tab.val ++ "\" w:pos=\""
                       ++ toString (toTwips tab.pos) ++ "\"/>"))
                ++ "\n        </w:tabs>"
              else ""
            | none => "")
        ++ (match level.indentation with
            | some ind =>
              "\n        <w:ind"
              ++ (match ind.left with
                  | some l => " w:left=\"" ++ toString (toTwips l) ++ "\""
                  | none => "")
              ++ (match ind.hanging with
                  | some h => " w:hanging=\"" ++ toString (toTwips h) ++ "\""
                  | none => "")
              ++ "/>"
            | none => "")
        ++ "\n      </w:pPr>"
      else "")
  ++ (if jsTruthyStr level.fontFamily || jsTruthyStr level.fontHint then
        "\n      <w:rPr>"
        ++ "\n        <w:rFonts"
        ++ (match level.fontFamily with
            | some ff => if ff ≠ "" then " w:ascii=\"" ++ ff ++ "\" w:hAnsi=\"" ++ ff ++ "\"" else ""
            | none => "")
        ++ (match level.fontHint with
            | some fh => if fh ≠ "" then " w:hint=\"" ++ fh ++ "\"" else ""
            | none => "")
        ++ "/>"
        ++ "\n      </w:rPr>"
      else "")
  ++ "\n    </w:lvl>"

/-- One abstract-numbering block of addNumbering. -/
def abstractNumXml (numDef : NumberingDefinition) : String :=
  "\n  <w:abstractNum w:abstractNumId=\"" ++ numDef.abstractNumId ++ "\">"
  ++ (match numDef.nsid with
      | some n => if n ≠ "" then "\n    <w:nsid w:val=\"" ++ n ++ "\"/>" else ""
      | none => "")
  ++ "\n    <w:multiLevelType w:val=\""
  ++ (match numDef.multiLevelType with
      | some m => if m ≠ "" then m else "hybridMultilevel"
      | none => "hybridMultilevel")
  ++ "\"/>"
  ++ (match numDef.tmpl with
      | some t => if t ≠ "" then "\n    <w:tmpl w:val=\"" ++ t ++ "\"/>" else ""
      | none => "")
  ++ String.join (numDef.levels.enum.map (fun le => numberingLevelXml le.1 le.2))
  ++ "\n  </w:abstractNum>"

/-- Extracted-definitions branch of addNumbering: abstract blocks written
once per abstractNumId in first-seen order, then all instances. -/
def numberingDefsXml (numbering : List (String × NumberingDefinition)) : String :=
  let abstractPart := (numbering.foldl (fun (acc : List String × String) entry =>
    if acc.1.contains entry.2.abstractNumId then acc
    else (acc.1 ++ [entry.2.abstractNumId], acc.2 ++ abstractNumXml entry.2)) ([], "")).2
  let instancesPart := String.join (numbering.map (fun entry =>
    "\n  <w:num w:numId=\"" ++ entry.1 ++ "\">"
    ++ "\n    <w:abstractNumId w:val=\"" ++ entry.2.abstractNumId ++ "\"/>"
    ++ "\n  </w:num>"))
  abstractPart ++ instancesPart

/-- Fallback branch of addNumbering: a generic bullet template (abstract
id 0, bound to instance id 1) and a generic decimal template (abstract
id 1, bound to instance id 2). -/
def numberingFallbackXml : String :=
"
  <w:abstractNum w:abstractNumId=\"0\">
    <w:multiLevelType w:val=\"singleLevel\"/>
    <w:lvl w:ilvl=\"0\">
      <w:start w:val=\"1\"/>
      <w:numFmt w:val=\"bullet\"/>
      <w:lvlText w:val=\"●\"/>
      <w:lvlJc w:val=\"left\"/>
      <w:pPr>
        <w:ind w:left=\"720\" w:hanging=\"360\"/>
      </w:pPr>
      <w:rPr>
        <w:rFonts w:ascii=\"Symbol\" w:hAnsi=\"Symbol\"/>
      </w:rPr>
    </w:lvl>
  </w:abstractNum>
  <w:abstractNum w:abstractNumId=\"1\">
    <w:multiLevelType w:val=\"singleLevel\"/>
    <w:lvl w:ilvl=\"0\">
      <w:start w:val=\"1\"/>
      <w:numFmt w:val=\"decimal\"/>
      <w:lvlText w:val=\"%1.\"/>
      <w:lvlJc w:val=\"left\"/>
      <w:pPr>
        <w:ind w:left=\"720\" w:hanging=\"360\"/>
      </w:pPr>
    </w:lvl>
  </w:abstractNum>
  <w:num w:numId=\"1\">
    <w:abstractNumId w:val=\"0\"/>
  </w:num>
  <w:num w:numId=\"2\">
    <w:abstractNumId w:val=\"1\"/>
  </w:num>"

/-- DocxBuilder.addNumbering: a minimal empty part when nothing references
numbering, otherwise either the extracted definitions or the synthesized
generic fallback. -/
def addNumbering (doc : ExtractedDocument) : String :=
  if !hasNumberingB doc && !hasNumberedParagraphsB doc then
    "<?xml version=\"1.0\" encoding=\"UTF-8\" standalone=\"yes\"?>\n<w:numbering xmlns:w=\"http://schemas.openxmlformats.org/wordprocessingml/2006/main\"/>"
  else
    "<?xml version=\"1.0\" encoding=\"UTF-8\" standalone=\"yes\"?>\n<w:numbering xmlns:w=\"http://schemas.openxmlformats.org/wordprocessingml/2006/main\">"
    ++ (if hasNumberingB doc then numberingDefsXml (doc.numbering.getD [])
        else numberingFallbackXml)
    ++ "\n</w:numbering>"

/-- Accumulator of the addDocumentRels loops. -/
structure RelsAcc where
  xml : String
  rels : List (String × RelRecord)
  imageCount : Int
  nextRelId : Int
deriving Repr, DecidableEq

def imageRelType : String :=
  "http://schemas.openxmlformats.org/officeDocument/2006/relationships/image"

def chartRelType : String :=
  "http://schemas.openxmlformats.org/officeDocument/2006/relationships/chart"

/-- Fixed part of word/_rels/document.xml.rels: ids 1 to 4 are reserved
for the styles, numbering, settings and webSettings parts. -/
def relsBaseXml : String :=
  "<?xml version=\"1.0\" encoding=\"UTF-8\" standalone=\"yes\"?>\n  <Relationships xmlns=\"http://schemas.openxmlformats.org/package/2006/relationships\">\n    <Relationship Id=\"rId1\" Type=\"http://schemas.openxmlformats.org/officeDocument/2006/relationships/styles\" Target=\"styles.xml\"/>\n    <Relationship Id=\"rId2\" Type=\"http://schemas.openxmlformats.org/officeDocument/2006/relationships/numbering\" Target=\"numbering.xml\"/>\n    <Relationship Id=\"rId3\" Type=\"http://schemas.openxmlformats.org/officeDocument/2006/relationships/settings\" Target=\"settings.xml\"/>\n    <Relationship Id=\"rId4\" Type=\"http://schemas.openxmlformats.org/officeDocument/2006/relationships/webSettings\" Target=\"webSettings.xml\"/>"

/-- Preserved-media step of addDocumentRels. -/
def mediaRelStep (acc : RelsAcc) (fp : String × List Nat) : RelsAcc :=
  let filePath := fp.1
  let target := replaceFirst filePath "word/" ""
  let relId := "rId" ++ toString acc.nextRelId
  let relType :=
    if (extOfPath filePath == some "xml") && strHasSub filePath "/charts/" then chartRelType
    else imageRelType
  { xml := acc.xml ++ "\n  <Relationship Id=\"" ++ relId ++ "\" Type=\"" ++ relType
             ++ "\" Target=\"" ++ target ++ "\"/>",
    rels := setAssoc acc.rels filePath ⟨relId, "image", target⟩,
    imageCount := acc.imageCount,
    nextRelId := acc.nextRelId + 1 }

/-- JS truthiness of the base64 payload (collapsed to bytes). -/
def imageDataTruthy (image : ExtractedImage) : Bool :=
  match image.data with
  | some bs => !bs.isEmpty
  | none => false

/-- ext derivation of the new-image loop:
contentType?.split(sep)[1] || png. -/
def imgExtOf (contentType : Option String) : String :=
  match contentType with
  | none => "png"
  | some ct =>
    match (jsSplitOn ct "/").get? 1 with
    | none => "png"
    | some e => if e = "" then "png" else e

/-- Relationship line emitted for one new image: sequential relationship
id and synthesized media target. -/
def newImageRelLine (relNum imgNum : Int) (image : ExtractedImage) : String :=
  "\n  <Relationship Id=\"rId" ++ toString relNum ++ "\" Type=\"" ++ imageRelType
  ++ "\" Target=\"media/image" ++ toString imgNum ++ "."
  ++ imgExtOf image.contentType ++ "\"/>"

/-- New-image step of addDocumentRels: a run image with truthy data and
falsy mediaPath gets the next sequential relationship id and a synthesized
media target. -/
def newImageRelStep (acc : RelsAcc) (run : ExtractedRun) : RelsAcc :=
  match run.image with
  | some image =>
    if imageDataTruthy image && !jsTruthyStr image.mediaPath then
      let imageCount := acc.imageCount + 1
      let relId := "rId" ++ toString acc.nextRelId
      let ext := imgExtOf image.contentType
      let target := "media/image" ++ toString imageCount ++ "." ++ ext
      { xml := acc.xml ++ newImageRelLine acc.nextRelId imageCount image,
        rels := setAssoc acc.rels image.src ⟨relId, "image", target⟩,
        imageCount := imageCount,
        nextRelId := acc.nextRelId + 1 }
    else acc
  | none => acc

/-- State of addDocumentRels after the fixed and preserved-media
relationships: the id counter is reset to 5 and then advanced once per
preserved media file. -/
def relsAfterMedia (doc : ExtractedDocument) : RelsAcc :=
  match doc.mediaFiles with
  | some ms =>
    if ms.length > 0 then ms.foldl mediaRelStep ⟨relsBaseXml, [], 0, 5⟩
    else ⟨relsBaseXml, [], 0, 5⟩
  | none => ⟨relsBaseXml, [], 0, 5⟩

/-- DocxBuilder.addDocumentRels: fixed ids 1 to 4, then one id per
preserved media file in archive-iteration order, then one id per new image
in paragraph order; returns the rels part text, the relationship table and
the final id counter. -/
def addDocumentRels (doc : ExtractedDocument) :
    String × List (String × RelRecord) × Int :=
  let afterImages :=
    doc.paragraphs.foldl (fun acc p => p.runs.foldl newImageRelStep acc)
      (relsAfterMedia doc)
  (afterImages.xml ++ "\n</Relationships>", afterImages.rels, afterImages.nextRelId)

/-- Archive entry written for one decoded run image in the addImages
fallback branch. -/
def fbEntryFor (n : Int) (image : ExtractedImage) : String × List Nat :=
  ("word/media/image" ++ toString n ++ "." ++ imgExtOf image.contentType,
   image.data.getD [])

/-- One run of the addImages fallback loop. -/
def fbStep (acc : List (String × List Nat) × Int) (run : ExtractedRun) :
    List (String × List Nat) × Int :=
  match run.image with
  | some image =>
    if imageDataTruthy image then
      let imageCount := acc.2 + 1
      (acc.1 ++ [fbEntryFor imageCount image], imageCount)
    else acc
  | none => acc

/-- Fallback branch of addImages: decode and write each run image that
carries data, numbering the synthesized media entries sequentially. -/
def fallbackImages (doc : ExtractedDocument) : List (String × List Nat) :=
  (doc.paragraphs.foldl (fun acc p => p.runs.foldl fbStep acc) ([], 0)).1

/-- DocxBuilder.addImages: copy the preserved media entries verbatim when
any exist, otherwise decode base64 run images into synthesized entries. -/
def addImages (doc : ExtractedDocument) : List (String × List Nat) :=
  match doc.mediaFiles with
  | some ms => if ms.length > 0 then ms else fallbackImages doc
  | none => fallbackImages doc

/-! ## General lemmas about strings and the builder -/

theorem leadsWith_refl (l : List Char) : leadsWith l l = true := by
  induction l with
  | nil => rfl
  | cons c rest ih => simp [leadsWith, ih]

theorem hasSubL_self (l : List Char) : hasSubL l l = true := by
  cases l with
  | nil => rfl
  | cons c rest => simp [hasSubL_cons, leadsWith_refl]

theorem HasSub.refl (s : String) : HasSub s s := hasSubL_self s.data

theorem strAppend_assoc (a b c : String) : (a ++ b) ++ c = a ++ (b ++ c) := by
  cases a with
  | mk la =>
    cases b with
    | mk lb =>
      cases c with
      | mk lc => exact congrArg String.mk (List.append_assoc la lb lc)

theorem strAppend_empty (a : String) : a ++ "" = a := by
  cases a with
  | mk la => exact congrArg String.mk (List.append_nil la)

theorem strEmpty_append (a : String) : "" ++ a = a := by
  cases a with
  | mk la => rfl

theorem strFoldl_append_shift (l : List String) (s : String) :
    l.foldl (· ++ ·) s = s ++ l.foldl (· ++ ·) "" := by
  induction l generalizing s with
  | nil => exact (strAppend_empty s).symm
  | cons b t ih =>
    show t.foldl (· ++ ·) (s ++ b) = s ++ t.foldl (· ++ ·) ("" ++ b)
    rw [ih (s ++ b), ih ("" ++ b), strEmpty_append, strAppend_assoc]

theorem sjoin_cons (a : String) (l : List String) :
    String.join (a :: l) = a ++ String.join l := by
  show l.foldl (· ++ ·) ("" ++ a) = a ++ l.foldl (· ++ ·) ""
  rw [strFoldl_append_shift l ("" ++ a), strEmpty_append]

theorem sjoin_nil : String.join ([] : List String) = "" := rfl

/-- Generic monotonicity for the string-and-state folds of the builder. -/
theorem foldState_hasSub_mono {α : Type}
    (f : BuilderSt → α → String × BuilderSt) (l : List α) (s : String)
    (st : BuilderSt) (pat : String) (h : HasSub s pat) :
    HasSub ((l.foldl (fun acc x =>
      let p := f acc.2 x
      (acc.1 ++ p.1, p.2)) (s, st)).1) pat := by
  induction l generalizing s st with
  | nil => exact h
  | cons x xs ih => exact ih (s ++ (f st x).1) (f st x).2 (HasSub.appendLeft _ h)

instance (s pat : String) : Decidable (HasSub s pat) := by
  unfold HasSub
  infer_instance

/-- Every run element emitted by buildRunXml wraps its content in a run
tag. -/
theorem buildRunXml_shape (st : BuilderSt) (run : ExtractedRun) :
    ∃ m st', buildRunXml st run = ("\n      <w:r>" ++ m ++ "\n      </w:r>", st') := by
  unfold buildRunXml
  cases run.image with
  | some image => exact ⟨_, _, rfl⟩
  | none =>
    cases run.text with
    | some t =>
      dsimp only
      split
      · exact ⟨_, _, rfl⟩
      · exact ⟨_, _, rfl⟩
    | none => exact ⟨_, _, rfl⟩

theorem buildRunXml_hasRun (st : BuilderSt) (run : ExtractedRun) :
    HasSub (buildRunXml st run).1 "<w:r>" := by
  obtain ⟨m, st', h⟩ := buildRunXml_shape st run
  rw [h]
  have base : HasSub "\n      <w:r>" "<w:r>" := by decide
  exact HasSub.appendLeft _ (HasSub.appendLeft _ base)

/-- Every paragraph built by buildParagraphXml contains at least one run
element, the synthesized empty run included. -/
theorem buildParagraphXml_hasRun (st : BuilderSt) (para : ExtractedParagraph) :
    HasSub (buildParagraphXml st para).1 "<w:r>" := by
  unfold buildParagraphXml
  by_cases h : para.runs.length > 0
  · rw [if_pos h]
    rcases hr : para.runs with _ | ⟨r, rs⟩
    · simp [hr] at h
    · have hfirst : HasSub ("" ++ (buildRunXml st r).1) "<w:r>" :=
        HasSub.appendRight "" (buildRunXml_hasRun st r)
      have hfold : HasSub (buildRunsFold st (r :: rs)).1 "<w:r>" :=
        foldState_hasSub_mono buildRunXml rs ("" ++ (buildRunXml st r).1)
          (buildRunXml st r).2 "<w:r>" hfirst
      exact HasSub.appendLeft _ (HasSub.appendRight _ hfold)
  · rw [if_neg h]
    have base : HasSub "\n      <w:r>\n        <w:t></w:t>\n      </w:r>" "<w:r>" := by decide
    exact HasSub.appendLeft _ (HasSub.appendRight _ base)

theorem buildParagraphXml_hasP (st : BuilderSt) (para : ExtractedParagraph) :
    HasSub (buildParagraphXml st para).1 "<w:p>" := by
  unfold buildParagraphXml
  have base : HasSub "\n    <w:p>" "<w:p>" := by decide
  by_cases h : para.runs.length > 0
  · rw [if_pos h]
    exact HasSub.appendLeft _ (HasSub.appendLeft _ (HasSub.appendLeft _ base))
  · rw [if_neg h]
    exact HasSub.appendLeft _ (HasSub.appendLeft _ (HasSub.appendLeft _ base))

/-- Every table cell built by buildTableCellXml contains at least one
paragraph element, the synthesized one for an empty content list
included. -/
theorem buildTableCellXml_hasP (st : BuilderSt) (cell : ExtractedTableCell) :
    HasSub (buildTableCellXml st cell).1 "<w:p>" := by
  unfold buildTableCellXml
  by_cases h : cell.content.length > 0
  · rw [if_pos h]
    rcases hc : cell.content with _ | ⟨p, ps⟩
    · simp [hc] at h
    · have hfirst : HasSub ("" ++ (buildParagraphXml st p).1) "<w:p>" :=
        HasSub.appendRight "" (buildParagraphXml_hasP st p)
      have hfold : HasSub (((p :: ps).foldl (fun acc para =>
          let q := buildParagraphXml acc.2 para
          (acc.1 ++ q.1, q.2)) ("", st)).1) "<w:p>" :=
        foldState_hasSub_mono buildParagraphXml ps ("" ++ (buildParagraphXml st p).1)
          (buildParagraphXml st p).2 "<w:p>" hfirst
      exact HasSub.appendLeft _ (HasSub.appendRight _ hfold)
  · rw [if_neg h]
    have base : HasSub "\n          <w:p>\n          </w:p>" "<w:p>" := by decide
    exact HasSub.appendLeft _ (HasSub.appendRight _ base)

/-- An occurrence inside the vertical-merge fragment survives into the
whole cell-properties block. -/
theorem buildTcPrXml_hasSub_of_vMerge (cell : ExtractedTableCell) (pat : String)
    (h : HasSub (vMergeXml cell.rowSpan) pat) : HasSub (buildTcPrXml cell) pat := by
  unfold buildTcPrXml
  apply HasSub.appendLeft
  apply HasSub.appendLeft
  apply HasSub.appendLeft
  apply HasSub.appendLeft
  apply HasSub.appendLeft
  exact HasSub.appendRight _ h

/-- An occurrence inside the cell-properties block survives into the whole
cell. -/
theorem buildTableCellXml_hasSub_of_tcPr (st : BuilderSt)
    (cell : ExtractedTableCell) (pat : String)
    (h : HasSub (buildTcPrXml cell) pat) :
    HasSub (buildTableCellXml st cell).1 pat := by
  unfold buildTableCellXml
  apply HasSub.appendLeft
  apply HasSub.appendLeft
  exact HasSub.appendRight _ h

/-! ## Claim C1 -/

/-- Cell with an empty content list. -/
def emptyContentCell : ExtractedTableCell :=
  ⟨[], none, none, none, none, none, none, none⟩

/-- Paragraph with an empty run list. -/
def emptyRunsParagraph : ExtractedParagraph :=
  ⟨[], none, none, none, none, none, true⟩

/-- Fresh builder state as set up by addDocumentRels. -/
def bst0 : BuilderSt := ⟨[], 5⟩

set_option maxRecDepth 8000 in
/-- C1: the build side must emit at least one run inside every emitted
paragraph, the paragraph synthesized for an empty table cell included, and
at least one paragraph inside every emitted cell. The cell built from an
empty content list does contain a paragraph element, but that synthesized
paragraph contains no run element at all, while a paragraph with zero runs
built through buildParagraphXml does receive a synthesized run — the
empty-cell path contradicts the builder's own stated requirement. -/
theorem c1_empty_cell_paragraph_lacks_run :
    strHasSub (buildTableCellXml bst0 emptyContentCell).1 "<w:r>" = false
    ∧ strHasSub (buildTableCellXml bst0 emptyContentCell).1 "<w:p>" = true
    ∧ strHasSub (buildParagraphXml bst0 emptyRunsParagraph).1 "<w:r>" = true := by
  refine ⟨?_, ?_, ?_⟩ <;> decide

/-! ## Claim C5 -/

/-- C5: buildTableCellXml serializes a merge-restart marker for a cell
with rowSpan 1, a bare continuation marker (a vMerge element carrying no
value) for rowSpan 0, and no vertical-merge marker at all for an undefined
rowSpan. -/
theorem c5_merge_sentinel_serialization (st : BuilderSt)
    (cell : ExtractedTableCell) :
    (cell.rowSpan = some 1 →
      HasSub (buildTableCellXml st cell).1 "<w:vMerge w:val=\"restart\"/>")
    ∧ (cell.rowSpan = some 0 →
      HasSub (buildTableCellXml st cell).1 "<w:vMerge/>"
      ∧ vMergeXml cell.rowSpan = "\n            <w:vMerge/>")
    ∧ (cell.rowSpan = none → vMergeXml cell.rowSpan = "") := by
  refine ⟨?_, ?_, ?_⟩
  · intro h
    apply buildTableCellXml_hasSub_of_tcPr
    apply buildTcPrXml_hasSub_of_vMerge
    rw [h]
    decide
  · intro h
    refine ⟨?_, ?_⟩
    · apply buildTableCellXml_hasSub_of_tcPr
      apply buildTcPrXml_hasSub_of_vMerge
      rw [h]
      decide
    · rw [h]
      decide
  · intro h
    rw [h]
    rfl

/-- Restart cell, continuation cell, unmerged cell. -/
def cellRowSpan1 : ExtractedTableCell :=
  ⟨[], none, some 1, none, none, none, none, none⟩

def cellRowSpan0 : ExtractedTableCell :=
  ⟨[], none, some 0, none, none, none, none, none⟩

def cellRowSpanNone : ExtractedTableCell :=
  ⟨[], none, none, none, none, none, none, none⟩

theorem c5_merge_sentinel_serialization_witness :
    HasSub (buildTableCellXml bst0 cellRowSpan1).1 "<w:vMerge w:val=\"restart\"/>"
    ∧ HasSub (buildTableCellXml bst0 cellRowSpan0).1 "<w:vMerge/>"
    ∧ vMergeXml cellRowSpanNone.rowSpan = "" :=
  ⟨(c5_merge_sentinel_serialization bst0 cellRowSpan1).1 rfl,
   ((c5_merge_sentinel_serialization bst0 cellRowSpan0).2.1 rfl).1,
   (c5_merge_sentinel_serialization bst0 cellRowSpanNone).2.2 rfl⟩

/-! ## Claim C2 -/

/-- Empty extraction context. -/
def ctx0 : ExtractCtx := ⟨[], ⟨[], []⟩⟩

/-- Paragraph whose numbering reference has a numId but no ilvl marker. -/
def pNumNoIlvl : Xml :=
  Xml.node "p" [] ""
    [Xml.node "pPr" [] ""
      [Xml.node "numPr" [] "" [Xml.node "numId" [("val", "5")] "" []]]]

/-- C2 counterexample: a paragraph whose numbering reference omits the
level marker is extracted with numbering.level equal to 0, not left
undefined. -/
theorem c2_extraction_defaults_level_counterexample :
    ((extractParagraph ctx0 pNumNoIlvl).numbering.map NumberingInfo.level)
      = some (some 0)
    ∧ ¬ ((extractParagraph ctx0 pNumNoIlvl).numbering.map NumberingInfo.level
      = some none) := by
  refine ⟨?_, ?_⟩ <;> decide

/-- C2 (amended): extraction defaults the paragraph-level numbering level
to 0 when the ilvl marker is absent; style-level references leave the
level undefined in that case; and the build side emits an ilvl marker only
when the level is defined. -/
theorem c2_numbering_level_defaulting :
    (∀ (ctx : ExtractCtx) (p pPr numPr numId : Xml),
      xmlElement p "pPr" = some pPr →
      xmlElement pPr "numPr" = some numPr →
      xmlElement numPr "numId" = some numId →
      xmlElement numPr "ilvl" = none →
      (extractParagraph ctx p).numbering =
        some ⟨(xmlAttr numId "val").getD "", some 0⟩)
    ∧ (∀ (pPr numPr numId : Xml),
      xmlElement pPr "numPr" = some numPr →
      xmlElement numPr "numId" = some numId →
      xmlElement numPr "ilvl" = none →
      styleNumbering pPr = some ⟨(xmlAttr numId "val").getD "", none⟩)
    ∧ (∀ n : NumberingInfo, n.level = none →
      numPrXml n = "\n        <w:numPr>"
        ++ "\n          <w:numId w:val=\"" ++ n.id ++ "\"/>"
        ++ "\n        </w:numPr>") := by
  refine ⟨?_, ?_, ?_⟩
  · intro ctx p pPr numPr numId h1 h2 h3 h4
    simp [extractParagraph, paraNumbering, h1, h2, h3, h4]
  · intro pPr numPr numId h2 h3 h4
    simp [styleNumbering, h2, h3, h4]
  · intro n h
    simp [numPrXml, h]

/-- Style paragraph-properties block whose numbering reference has a numId
but no ilvl marker. -/
def stylePPrNoIlvl : Xml :=
  Xml.node "pPr" [] ""
    [Xml.node "numPr" [] "" [Xml.node "numId" [("val", "7")] "" []]]

theorem c2_numbering_level_defaulting_witness :
    (extractParagraph ctx0 pNumNoIlvl).numbering = some ⟨"5", some 0⟩
    ∧ styleNumbering stylePPrNoIlvl = some ⟨"7", none⟩
    ∧ numPrXml ⟨"5", none⟩ = "\n        <w:numPr>"
        ++ "\n          <w:numId w:val=\"5\"/>"
        ++ "\n        </w:numPr>" :=
  ⟨c2_numbering_level_defaulting.1 ctx0 pNumNoIlvl _ _ _ rfl rfl rfl rfl,
   c2_numbering_level_defaulting.2.1 stylePPrNoIlvl _ _ rfl rfl rfl,
   c2_numbering_level_defaulting.2.2 ⟨"5", none⟩ rfl⟩

/-! ## Claim C6 -/

/-- Cell whose vMerge element carries no value. -/
def tcVMergeBare : Xml :=
  Xml.node "tc" [] "" [Xml.node "tcPr" [] "" [Xml.node "vMerge" [] "" []]]

/-- Cell whose vMerge element carries the explicit value continue. -/
def tcVMergeContinue : Xml :=
  Xml.node "tc" [] ""
    [Xml.node "tcPr" [] "" [Xml.node "vMerge" [("val", "continue")] "" []]]

/-- C6 counterexample: a vMerge element with an absent value decodes to
rowSpan 0, not 1; an explicit continue value decodes to no rowSpan at all,
not 0. -/
theorem c6_vmerge_decoding_counterexample :
    (extractCellProperties tcVMergeBare).rowSpan = some 0
    ∧ ¬ ((extractCellProperties tcVMergeBare).rowSpan = some 1)
    ∧ (extractCellProperties tcVMergeContinue).rowSpan = none
    ∧ ¬ ((extractCellProperties tcVMergeContinue).rowSpan = some 0) := by
  refine ⟨?_, ?_, ?_, ?_⟩ <;> decide

/-- C6 (amended): extractCellProperties decodes vMerge restart to
rowSpan 1; a vMerge element present with an absent value to rowSpan 0 (a
continuation); an explicit non-restart value (such as continue) to no
rowSpan at all; and a cell without a vMerge element (or without cell
properties) gets no rowSpan. -/
theorem c6_vmerge_decoding (tc : Xml) :
    (∀ tcPr vm, xmlElement tc "tcPr" = some tcPr →
      xmlElement tcPr "vMerge" = some vm →
      (xmlAttr vm "val" = some "restart" →
        (extractCellProperties tc).rowSpan = some 1)
      ∧ (xmlAttr vm "val" = none →
        (extractCellProperties tc).rowSpan = some 0)
      ∧ (∀ s, xmlAttr vm "val" = some s → s ≠ "restart" →
        (extractCellProperties tc).rowSpan = none))
    ∧ (∀ tcPr, xmlElement tc "tcPr" = some tcPr →
      xmlElement tcPr "vMerge" = none →
      (extractCellProperties tc).rowSpan = none)
    ∧ (xmlElement tc "tcPr" = none →
      (extractCellProperties tc).rowSpan = none) := by
  refine ⟨?_, ?_, ?_⟩
  · intro tcPr vm h1 h2
    refine ⟨?_, ?_, ?_⟩
    · intro hv
      simp [extractCellProperties, h1, h2, hv]
    · intro hv
      simp [extractCellProperties, h1, h2, hv]
    · intro s hv hs
      simp [extractCellProperties, h1, h2, hv, hs]
  · intro tcPr h1 h2
    simp [extractCellProperties, h1, h2]
  · intro h1
    simp [extractCellProperties, h1]

/-- Cell whose vMerge element carries the value restart, and a cell with
no vMerge element. -/
def tcVMergeRestart : Xml :=
  Xml.node "tc" [] ""
    [Xml.node "tcPr" [] "" [Xml.node "vMerge" [("val", "restart")] "" []]]

def tcNoVMerge : Xml :=
  Xml.node "tc" [] "" [Xml.node "tcPr" [] "" []]

theorem c6_vmerge_decoding_witness :
    (extractCellProperties tcVMergeRestart).rowSpan = some 1
    ∧ (extractCellProperties tcVMergeBare).rowSpan = some 0
    ∧ (extractCellProperties tcVMergeContinue).rowSpan = none
    ∧ (extractCellProperties tcNoVMerge).rowSpan = none :=
  ⟨((c6_vmerge_decoding tcVMergeRestart).1 _ _ rfl rfl).1 rfl,
   ((c6_vmerge_decoding tcVMergeBare).1 _ _ rfl rfl).2.1 rfl,
   ((c6_vmerge_decoding tcVMergeContinue).1 _ _ rfl rfl).2.2 "continue" rfl
     (by decide),
   (c6_vmerge_decoding tcNoVMerge).2.1 _ rfl rfl⟩

/-! ## Claim C7 -/

/-- C7: lengthAttr returns null for a missing attribute and otherwise
converts the parsed integer to points by dividing by 20 for dxa, dividing
by 12700 for emu, and passing through for pt; the build-side dxa inverse
Math.round(value * 20) recovers the original integer exactly. -/
theorem c7_length_unit_conversion :
    (∀ (e : Xml) (name : String), xmlAttr e name = none →
      lengthAttr e name .dxa = none ∧ lengthAttr e name .emu = none
      ∧ lengthAttr e name .pt = none)
    ∧ (∀ (e : Xml) (name s : String) (v : Int),
      xmlAttr e name = some s → s ≠ "" → jsParseInt s = some v →
      lengthAttr e name .dxa = some ((v : ℚ) / 20)
      ∧ lengthAttr e name .emu = some ((v : ℚ) / 12700)
      ∧ lengthAttr e name .pt = some (v : ℚ))
    ∧ (∀ v : Int, toTwips ((v : ℚ) / 20) = v) := by
  refine ⟨?_, ?_, ?_⟩
  · intro e name h
    refine ⟨?_, ?_, ?_⟩ <;> simp [lengthAttr, h]
  · intro e name s v h1 h2 h3
    refine ⟨?_, ?_, ?_⟩ <;> simp [lengthAttr, h1, h2, h3]
  · intro v
    unfold toTwips jsRound
    rw [div_mul_cancel₀ _ (by norm_num : (20 : ℚ) ≠ 0)]
    rw [add_comm, Int.floor_add_int]
    norm_num

/-- Element with a dxa-valued attribute, and one without it. -/
def lenElem : Xml := Xml.node "spacing" [("before", "100")] "" []

def lenElemBare : Xml := Xml.node "spacing" [] "" []

theorem c7_length_unit_conversion_witness :
    lengthAttr lenElem "before" .dxa = some ((100 : ℚ) / 20)
    ∧ lengthAttr lenElem "before" .emu = some ((100 : ℚ) / 12700)
    ∧ lengthAttr lenElem "before" .pt = some (100 : ℚ)
    ∧ toTwips ((100 : ℚ) / 20) = 100
    ∧ lengthAttr lenElemBare "before" .dxa = none :=
  ⟨(c7_length_unit_conversion.2.1 lenElem "before" "100" 100 rfl (by decide)
      (by decide)).1,
   (c7_length_unit_conversion.2.1 lenElem "before" "100" 100 rfl (by decide)
      (by decide)).2.1,
   (c7_length_unit_conversion.2.1 lenElem "before" "100" 100 rfl (by decide)
      (by decide)).2.2,
   c7_length_unit_conversion.2.2 100,
   (c7_length_unit_conversion.1 lenElemBare "before" rfl).1⟩

/-! ## Claim C8 -/

/-- C8: extract aborts with an error when the word/document.xml part is
missing, aborts when that part has no body element, and succeeds exactly
when both are present — no partial result exists in either fatal case. -/
theorem c8_extract_fatal_conditions :
    (∀ a : Archive, a.xmlPart "word/document.xml" = none →
      extract a = Except.error "Invalid DOCX file: document.xml not found")
    ∧ (∀ (a : Archive) (root : Xml),
      a.xmlPart "word/document.xml" = some root →
      xmlElement root "body" = none →
      extract a = Except.error "Invalid DOCX file: body not found")
    ∧ (∀ a : Archive, (extract a).isOk = true ↔
      ∃ root, a.xmlPart "word/document.xml" = some root
        ∧ (xmlElement root "body").isSome = true) := by
  refine ⟨?_, ?_, ?_⟩
  · intro a h
    simp [extract, h]
  · intro a root h1 h2
    simp [extract, h1, h2]
  · intro a
    constructor
    · intro h
      cases hdoc : a.xmlPart "word/document.xml" with
      | none => simp [extract, hdoc, Except.isOk, Except.toBool] at h
      | some root =>
        cases hbody : xmlElement root "body" with
        | none => simp [extract, hdoc, hbody, Except.isOk, Except.toBool] at h
        | some body => exact ⟨root, rfl, by simp [hbody]⟩
    · rintro ⟨root, hdoc, hbody⟩
      cases hb : xmlElement root "body" with
      | none => rw [hb] at hbody; simp at hbody
      | some body => simp [extract, hdoc, hb, Except.isOk, Except.toBool]

/-- Archives missing the primary part, missing the body, and complete. -/
def archNoDoc : Archive := ⟨[], []⟩

def archNoBody : Archive :=
  ⟨[("word/document.xml", Xml.node "document" [] "" [])], []⟩

def archWithBody : Archive :=
  ⟨[("word/document.xml",
     Xml.node "document" [] "" [Xml.node "body" [] "" []])], []⟩

theorem c8_extract_fatal_conditions_witness :
    extract archNoDoc = Except.error "Invalid DOCX file: document.xml not found"
    ∧ extract archNoBody = Except.error "Invalid DOCX file: body not found"
    ∧ (extract archWithBody).isOk = true :=
  ⟨c8_extract_fatal_conditions.1 archNoDoc rfl,
   c8_extract_fatal_conditions.2.1 archNoBody _ rfl rfl,
   (c8_extract_fatal_conditions.2.2 archWithBody).mpr ⟨_, rfl, rfl⟩⟩

/-! ## Claim C3 -/

/-- Per-child text contribution of the run assembly: literal text for text
nodes, a horizontal tab for tab markers, a form feed for explicit page
breaks and a newline for other breaks, nothing for anything else. -/
def runTextContrib (child : Xml) : String :=
  if child.localName = "t" then child.textContent
  else if child.localName = "tab" then "\t"
  else if child.localName = "br" then
    (if xmlAttr child "type" = some "page" then "\u000C" else "\n")
  else ""

/-- The five normalized line-terminator variants. -/
def isLineTerm (c : Char) : Bool :=
  c == ' ' || c == ' ' || c == '\u0085' || c == '\u000B' || c == '\u000C'

theorem extractRunStep_text (ctx : ExtractCtx) (acc : String × Option ExtractedImage)
    (child : Xml) : (extractRunStep ctx acc child).1 = acc.1 ++ runTextContrib child := by
  unfold extractRunStep runTextContrib
  split_ifs <;> simp [strAppend_empty]

theorem extractRun_fold_text (ctx : ExtractCtx) (l : List Xml)
    (acc : String × Option ExtractedImage) :
    ((l.foldl (extractRunStep ctx) acc).1)
      = acc.1 ++ String.join (l.map runTextContrib) := by
  induction l generalizing acc with
  | nil => simp [String.join, strAppend_empty]
  | cons c rest ih =>
    show ((rest.foldl (extractRunStep ctx) (extractRunStep ctx acc c)).1) = _
    rw [ih (extractRunStep ctx acc c), extractRunStep_text, List.map_cons,
      sjoin_cons]
    exact strAppend_assoc _ _ _

theorem charNorm_safe (c : Char) :
    isLineTerm (replChar '\u000C' (replChar '\u000B' (replChar '\u0085'
      (replChar ' ' (replChar ' ' c))))) = false := by
  unfold replChar isLineTerm
  split_ifs <;> simp_all

theorem normalizeText_safe (s : String) :
    ((normalizeText s).data.all (fun c => !isLineTerm c)) = true := by
  unfold normalizeText mapChars
  show (((((s.data.map _).map _).map _).map _).map _).all _ = true
  simp only [List.map_map]
  rw [List.all_eq_true]
  intro c hc
  rcases List.mem_map.mp hc with ⟨x, hx, rfl⟩
  simp only [Function.comp_apply]
  rw [charNorm_safe x]
  rfl

/-- Demonstration run: literal text, a tab marker, a plain break, an
explicit page break, more literal text. -/
def demoRun : Xml :=
  Xml.node "r" [] ""
    [Xml.node "t" [] "ab" [], Xml.node "tab" [] "" [], Xml.node "br" [] "" [],
     Xml.node "br" [("type", "page")] "" [], Xml.node "t" [] "cd" []]

/-- C3 (amended): run text is the in-order concatenation of literal text,
one tab per tab marker, one newline per plain break marker and one form
feed per explicit page break, after which the normalization pass replaces
every one of the five line-terminator variants — the page-break form feed
included — with a plain space, so no line-terminator variant ever survives
in extracted run text; the demonstration run shows the page-break marker
ending up as a space. -/
theorem c3_run_text_assembly :
    (∀ (ctx : ExtractCtx) (r : Xml),
      (extractRun ctx r).text =
        (if normalizeText (String.join ((xmlElements r).map runTextContrib)) = ""
         then none
         else some (normalizeText
             (String.join ((xmlElements r).map runTextContrib)))))
    ∧ (∀ (ctx : ExtractCtx) (r : Xml),
      (((extractRun ctx r).text.getD "").data.all (fun c => !isLineTerm c)) = true)
    ∧ (extractRun ctx0 demoRun).text = some "ab\t\n cd" := by
  have h1 : ∀ (ctx : ExtractCtx) (r : Xml),
      (extractRun ctx r).text =
        (if normalizeText (String.join ((xmlElements r).map runTextContrib)) = ""
         then none
         else some (normalizeText
             (String.join ((xmlElements r).map runTextContrib)))) := by
    intro ctx r
    have e1 : (extractRun ctx r).text
        = (if normalizeText
              (((xmlElements r).foldl (extractRunStep ctx) ("", none)).1) = ""
           then none
           else some (normalizeText
              (((xmlElements r).foldl (extractRunStep ctx) ("", none)).1))) := rfl
    rw [e1, extractRun_fold_text]
    have e2 : (("", (none : Option ExtractedImage)).1 : String) = "" := rfl
    rw [e2, strEmpty_append]
  refine ⟨h1, ?_, ?_⟩
  · intro ctx r
    rw [h1 ctx r]
    by_cases h : normalizeText (String.join ((xmlElements r).map runTextContrib)) = ""
    · simp [h]
    · simp only [if_neg h, Option.getD_some]
      exact normalizeText_safe _
  · decide

/-! ## Claim C4 -/

/-- Run has a drawing child. -/
def hasDrawingChild (r : Xml) : Bool :=
  (xmlElements r).any (fun c => c.localName == "drawing")

/-- Run has a text-producing child (text node, tab marker or break
marker). -/
def hasTextMarkChild (r : Xml) : Bool :=
  (xmlElements r).any (fun c =>
    c.localName == "t" || c.localName == "tab" || c.localName == "br")

theorem extractRunStep_image (ctx : ExtractCtx)
    (acc : String × Option ExtractedImage) (child : Xml) :
    (extractRunStep ctx acc child).2 =
      (if child.localName = "drawing" then extractDrawing ctx child
       else if child.localName = "pict" then none
       else acc.2) := by
  unfold extractRunStep extractVmlPicture
  split_ifs <;> simp_all

theorem runTextContrib_empty (child : Xml)
    (h : child.localName ≠ "t" ∧ child.localName ≠ "tab" ∧ child.localName ≠ "br") :
    runTextContrib child = "" := by
  unfold runTextContrib
  rw [if_neg h.1, if_neg h.2.1, if_neg h.2.2]

theorem extractRun_fold_image_none (ctx : ExtractCtx) (l : List Xml)
    (acc : String × Option ExtractedImage)
    (hnd : ∀ c ∈ l, c.localName ≠ "drawing") (hacc : acc.2 = none) :
    ((l.foldl (extractRunStep ctx) acc).2) = none := by
  induction l generalizing acc with
  | nil => exact hacc
  | cons c rest ih =>
    have hstep : (extractRunStep ctx acc c).2 = none := by
      rw [extractRunStep_image, if_neg (hnd c (List.mem_cons_self c rest))]
      by_cases hp : c.localName = "pict"
      · rw [if_pos hp]
      · rw [if_neg hp]
        exact hacc
    exact ih (extractRunStep ctx acc c)
      (fun x hx => hnd x (List.mem_cons_of_mem c hx)) hstep

theorem extractRun_fold_text_unchanged (ctx : ExtractCtx) (l : List Xml)
    (acc : String × Option ExtractedImage)
    (hnt : ∀ c ∈ l, c.localName ≠ "t" ∧ c.localName ≠ "tab" ∧ c.localName ≠ "br") :
    ((l.foldl (extractRunStep ctx) acc).1) = acc.1 := by
  induction l generalizing acc with
  | nil => rfl
  | cons c rest ih =>
    show ((rest.foldl (extractRunStep ctx) (extractRunStep ctx acc c)).1) = acc.1
    rw [ih (extractRunStep ctx acc c)
      (fun x hx => hnt x (List.mem_cons_of_mem c hx))]
    rw [extractRunStep_text,
      runTextContrib_empty c (hnt c (List.mem_cons_self c rest)),
      strAppend_empty]

/-- C4 (amended): a run without a drawing child is extracted with no
image, a run without any text-producing child is extracted with no text,
so text-image exclusivity holds for every run that does not combine both
kinds of children; a run that does combine them violates exclusivity (see
the counterexample). -/
theorem c4_run_content_exclusivity_guarded :
    (∀ (ctx : ExtractCtx) (r : Xml), hasDrawingChild r = false →
      (extractRun ctx r).image = none)
    ∧ (∀ (ctx : ExtractCtx) (r : Xml), hasTextMarkChild r = false →
      (extractRun ctx r).text = none)
    ∧ (∀ (ctx : ExtractCtx) (r : Xml),
      hasDrawingChild r = false ∨ hasTextMarkChild r = false →
      ¬ ((extractRun ctx r).text.isSome = true
         ∧ (extractRun ctx r).image.isSome = true)) := by
  have himg : ∀ (ctx : ExtractCtx) (r : Xml), hasDrawingChild r = false →
      (extractRun ctx r).image = none := by
    intro ctx r h
    show ((xmlElements r).foldl (extractRunStep ctx) ("", none)).2 = none
    apply extractRun_fold_image_none ctx (xmlElements r) ("", none) ?_ rfl
    intro c hc
    have hb := List.any_eq_false.mp h c hc
    simp only [Bool.not_eq_true] at hb
    exact ne_of_beq_false hb
  have htext : ∀ (ctx : ExtractCtx) (r : Xml), hasTextMarkChild r = false →
      (extractRun ctx r).text = none := by
    intro ctx r h
    have hpt : ∀ c ∈ xmlElements r,
        c.localName ≠ "t" ∧ c.localName ≠ "tab" ∧ c.localName ≠ "br" := by
      intro c hc
      have hb := List.any_eq_false.mp h c hc
      simp only [Bool.not_eq_true, Bool.or_eq_false_iff] at hb
      exact ⟨ne_of_beq_false hb.1.1, ne_of_beq_false hb.1.2, ne_of_beq_false hb.2⟩
    have hz : ((xmlElements r).foldl (extractRunStep ctx) ("", none)).1 = "" :=
      extractRun_fold_text_unchanged ctx _ _ hpt
    show (if normalizeText
            (((xmlElements r).foldl (extractRunStep ctx) ("", none)).1) = ""
          then none
          else some (normalizeText
            (((xmlElements r).foldl (extractRunStep ctx) ("", none)).1))) = none
    rw [hz]
    rfl
  refine ⟨himg, htext, ?_⟩
  rintro ctx r hor ⟨htxt, himg'⟩
  rcases hor with h | h
  · rw [himg ctx r h] at himg'
    simp at himg'
  · rw [htext ctx r h] at htxt
    simp at htxt

/-- Context with a resolvable image relationship. -/
def ctxRel : ExtractCtx := ⟨[("rId7", "media/image1.png")], ⟨[], []⟩⟩

/-- Fully resolvable drawing child. -/
def drawingOk : Xml :=
  Xml.node "drawing" [] ""
    [Xml.node "inline" [] ""
      [Xml.node "graphic" [] ""
        [Xml.node "graphicData" [] ""
          [Xml.node "pic" [] ""
            [Xml.node "blipFill" [] ""
              [Xml.node "blip" [("embed", "rId7")] "" []]]]]]]

/-- Run holding both a text node and a resolvable drawing. -/
def runTextAndDrawing : Xml :=
  Xml.node "r" [] "" [Xml.node "t" [] "hi" [], drawingOk]

/-- C4 counterexample: a run containing both a text node and a resolvable
drawing child is extracted with non-empty text and a defined image
simultaneously. -/
theorem c4_run_content_exclusivity_counterexample :
    (extractRun ctxRel runTextAndDrawing).text = some "hi"
    ∧ (extractRun ctxRel runTextAndDrawing).image.isSome = true := by
  refine ⟨?_, ?_⟩ <;> decide

/-- Run holding only a text node. -/
def runTextOnly : Xml := Xml.node "r" [] "" [Xml.node "t" [] "hi" []]

theorem c4_run_content_exclusivity_guarded_witness :
    (extractRun ctx0 runTextOnly).image = none
    ∧ ¬ ((extractRun ctx0 runTextOnly).text.isSome = true
       ∧ (extractRun ctx0 runTextOnly).image.isSome = true) :=
  ⟨c4_run_content_exclusivity_guarded.1 ctx0 runTextOnly (by decide),
   c4_run_content_exclusivity_guarded.2.2 ctx0 runTextOnly (Or.inl (by decide))⟩

/-! ## Claim C9 -/

set_option maxRecDepth 20000 in
/-- C9: when a document has no extracted numbering definitions but some
paragraph still references a numbering id, addNumbering succeeds and
emits the synthesized fallback: a generic bullet abstract template
(abstract id 0) bound to numbering instance id 1 and a generic decimal
abstract template (abstract id 1) bound to numbering instance id 2. -/
theorem c9_numbering_fallback (doc : ExtractedDocument)
    (h1 : hasNumberingB doc = false) (h2 : hasNumberedParagraphsB doc = true) :
    HasSub (addNumbering doc)
      ("<w:abstractNum w:abstractNumId=\"0\">\n    <w:multiLevelType w:val=\"singleLevel\"/>\n    <w:lvl w:ilvl=\"0\">\n      <w:start w:val=\"1\"/>\n      <w:numFmt w:val=\"bullet\"/>")
    ∧ HasSub (addNumbering doc)
      ("<w:abstractNum w:abstractNumId=\"1\">\n    <w:multiLevelType w:val=\"singleLevel\"/>\n    <w:lvl w:ilvl=\"0\">\n      <w:start w:val=\"1\"/>\n      <w:numFmt w:val=\"decimal\"/>")
    ∧ HasSub (addNumbering doc)
      ("<w:num w:numId=\"1\">\n    <w:abstractNumId w:val=\"0\"/>\n  </w:num>")
    ∧ HasSub (addNumbering doc)
      ("<w:num w:numId=\"2\">\n    <w:abstractNumId w:val=\"1\"/>\n  </w:num>") := by
  have he : addNumbering doc =
      "<?xml version=\"1.0\" encoding=\"UTF-8\" standalone=\"yes\"?>\n<w:numbering xmlns:w=\"http://schemas.openxmlformats.org/wordprocessingml/2006/main\">"
      ++ numberingFallbackXml ++ "\n</w:numbering>" := by
    simp [addNumbering, h1, h2]
  refine ⟨?_, ?_, ?_, ?_⟩ <;> (rw [he]; exact HasSub.extend _ _ (by decide))

/-- Document with one paragraph referencing numbering id 1 and no
numbering definitions. -/
def docNumberedNoDefs : ExtractedDocument :=
  { paragraphs := [⟨[], none, none, none, none, some ⟨"1", some 0⟩, true⟩],
    tables := [], body := [], styles := [], numbering := none,
    mediaFiles := none }

theorem c9_numbering_fallback_witness :
    HasSub (addNumbering docNumberedNoDefs)
      ("<w:num w:numId=\"1\">\n    <w:abstractNumId w:val=\"0\"/>\n  </w:num>")
    ∧ HasSub (addNumbering docNumberedNoDefs)
      ("<w:num w:numId=\"2\">\n    <w:abstractNumId w:val=\"1\"/>\n  </w:num>") :=
  ⟨(c9_numbering_fallback docNumberedNoDefs rfl rfl).2.2.1,
   (c9_numbering_fallback docNumberedNoDefs rfl rfl).2.2.2⟩

/-! ## Claim C10 -/

/-- Image of a run that the new-image relationship loop picks up: data is
truthy and mediaPath is falsy. -/
def runNewImage (run : ExtractedRun) : Option ExtractedImage :=
  match run.image with
  | some image =>
    if imageDataTruthy image && !jsTruthyStr image.mediaPath then some image
    else none
  | none => none

/-- Image of a run that the addImages fallback loop picks up: data is
truthy. -/
def runDataImage (run : ExtractedRun) : Option ExtractedImage :=
  match run.image with
  | some image => if imageDataTruthy image then some image else none
  | none => none

def newImagesRuns (l : List ExtractedRun) : List ExtractedImage :=
  l.filterMap runNewImage

def dataImagesRuns (l : List ExtractedRun) : List ExtractedImage :=
  l.filterMap runDataImage

/-- New images of a document in paragraph order. -/
def newImages (doc : ExtractedDocument) : List ExtractedImage :=
  newImagesRuns ((doc.paragraphs.map (fun p => p.runs)).flatten)

/-- Data-carrying images of a document in paragraph order. -/
def dataImages (doc : ExtractedDocument) : List ExtractedImage :=
  dataImagesRuns ((doc.paragraphs.map (fun p => p.runs)).flatten)

/-- Number of preserved-media relationship ids consumed before the
new-image loop. -/
def mediaRelCount (doc : ExtractedDocument) : Int :=
  match doc.mediaFiles with
  | some ms => ms.length
  | none => 0

/-- Sequentially numbered archive entries of the addImages fallback. -/
def fallbackEntries : List ExtractedImage → Int → List (String × List Nat)
  | [], _ => []
  | image :: rest, n => fbEntryFor (n + 1) image :: fallbackEntries rest (n + 1)

theorem nested_runs_foldl {β : Type} (f : β → ExtractedRun → β)
    (ps : List ExtractedParagraph) (init : β) :
    ps.foldl (fun acc p => p.runs.foldl f acc) init
      = ((ps.map (fun p => p.runs)).flatten).foldl f init := by
  induction ps generalizing init with
  | nil => rfl
  | cons p rest ih =>
    show rest.foldl _ (p.runs.foldl f init) = _
    rw [ih, List.map_cons, List.flatten_cons, List.foldl_append]

theorem fbStep_eq (acc : List (String × List Nat) × Int) (run : ExtractedRun) :
    fbStep acc run =
      (match runDataImage run with
       | some image => (acc.1 ++ [fbEntryFor (acc.2 + 1) image], acc.2 + 1)
       | none => acc) := by
  unfold fbStep runDataImage
  cases run.image with
  | none => rfl
  | some image =>
    by_cases h : imageDataTruthy image
    · simp [h]
    · simp [h]

theorem fb_fold_char (l : List ExtractedRun) (es : List (String × List Nat))
    (n : Int) :
    l.foldl fbStep (es, n)
      = (es ++ fallbackEntries (dataImagesRuns l) n,
         n + (dataImagesRuns l).length) := by
  induction l generalizing es n with
  | nil => simp [dataImagesRuns, fallbackEntries]
  | cons r rest ih =>
    show rest.foldl fbStep (fbStep (es, n) r) = _
    rw [fbStep_eq]
    unfold dataImagesRuns
    rw [List.filterMap_cons]
    cases hr : runDataImage r with
    | none => exact ih es n
    | some image =>
      rw [ih]
      refine Prod.ext ?_ ?_
      · show (es ++ [fbEntryFor (n + 1) image])
            ++ fallbackEntries (rest.filterMap runDataImage) (n + 1)
          = es ++ fallbackEntries (image :: rest.filterMap runDataImage) n
        rw [List.append_assoc]
        rfl
      · show (n + 1) + ((rest.filterMap runDataImage).length : Int)
          = n + ((image :: rest.filterMap runDataImage).length : Int)
        simp
        ring
  
theorem newImageRelStep_eq (acc : RelsAcc) (run : ExtractedRun) :
    newImageRelStep acc run =
      (match runNewImage run with
       | some image =>
         { xml := acc.xml ++ newImageRelLine acc.nextRelId (acc.imageCount + 1) image,
           rels := setAssoc acc.rels image.src
             ⟨"rId" ++ toString acc.nextRelId, "image",
              "media/image" ++ toString (acc.imageCount + 1) ++ "."
                ++ imgExtOf image.contentType⟩,
           imageCount := acc.imageCount + 1,
           nextRelId := acc.nextRelId + 1 }
       | none => acc) := by
  unfold newImageRelStep runNewImage
  cases run.image with
  | none => rfl
  | some image =>
    by_cases h : (imageDataTruthy image && !jsTruthyStr image.mediaPath) = true
    · simp [h]
    · simp [h]

theorem relsFold_xml_mono (l : List ExtractedRun) (acc : RelsAcc) (pat : String)
    (h : HasSub acc.xml pat) : HasSub ((l.foldl newImageRelStep acc).xml) pat := by
  induction l generalizing acc with
  | nil => exact h
  | cons r rest ih =>
    show HasSub ((rest.foldl newImageRelStep (newImageRelStep acc r)).xml) pat
    apply ih
    rw [newImageRelStep_eq]
    cases hni : runNewImage r with
    | none => exact h
    | some image => exact HasSub.appendLeft _ h

theorem relsFold_line (l : List ExtractedRun) (acc : RelsAcc) (k : ℕ)
    (image : ExtractedImage) (hk : (newImagesRuns l).get? k = some image) :
    HasSub ((l.foldl newImageRelStep acc).xml)
      (newImageRelLine (acc.nextRelId + k) (acc.imageCount + 1 + k) image) := by
  induction l generalizing acc k with
  | nil => simp [newImagesRuns] at hk
  | cons r rest ih =>
    show HasSub ((rest.foldl newImageRelStep (newImageRelStep acc r)).xml) _
    unfold newImagesRuns at hk
    rw [List.filterMap_cons] at hk
    rw [newImageRelStep_eq]
    cases hni : runNewImage r with
    | none =>
      rw [hni] at hk
      exact ih acc k hk
    | some image0 =>
      rw [hni] at hk
      cases k with
      | zero =>
        rw [List.get?_cons_zero] at hk
        obtain rfl : image0 = image := Option.some_injective _ hk
        rw [show acc.nextRelId + ((0 : ℕ) : Int) = acc.nextRelId by push_cast; ring,
          show acc.imageCount + 1 + ((0 : ℕ) : Int) = acc.imageCount + 1 by push_cast; ring]
        apply relsFold_xml_mono
        exact HasSub.appendRight _ (HasSub.refl _)
      | succ k' =>
        rw [List.get?_cons_succ] at hk
        rw [show acc.nextRelId + ((k' + 1 : ℕ) : Int) = (acc.nextRelId + 1) + (k' : Int) by
              push_cast; ring,
          show acc.imageCount + 1 + ((k' + 1 : ℕ) : Int)
              = (acc.imageCount + 1) + 1 + (k' : Int) by push_cast; ring]
        exact ih _ k' hk

theorem mediaFold_counts (ms : List (String × List Nat)) (acc : RelsAcc) :
    (ms.foldl mediaRelStep acc).nextRelId = acc.nextRelId + ms.length
    ∧ (ms.foldl mediaRelStep acc).imageCount = acc.imageCount := by
  induction ms generalizing acc with
  | nil => constructor <;> simp
  | cons m rest ih =>
    have h := ih (mediaRelStep acc m)
    constructor
    · show (rest.foldl mediaRelStep (mediaRelStep acc m)).nextRelId = _
      rw [h.1]
      show acc.nextRelId + 1 + (rest.length : Int)
        = acc.nextRelId + ((rest.length + 1 : ℕ) : Int)
      push_cast
      ring
    · show (rest.foldl mediaRelStep (mediaRelStep acc m)).imageCount = _
      rw [h.2]
      rfl

theorem relsAfterMedia_counts (doc : ExtractedDocument) :
    (relsAfterMedia doc).nextRelId = 5 + mediaRelCount doc
    ∧ (relsAfterMedia doc).imageCount = 0 := by
  unfold relsAfterMedia mediaRelCount
  cases hmf : doc.mediaFiles with
  | none => constructor <;> simp
  | some ms =>
    dsimp only
    by_cases h : ms.length > 0
    · rw [if_pos h]
      have hm := mediaFold_counts ms ⟨relsBaseXml, [], 0, 5⟩
      constructor
      · rw [hm.1]
      · exact hm.2
    · rw [if_neg h]
      have hz : ms.length = 0 := by omega
      constructor
      · show (5 : Int) = 5 + (ms.length : Int)
        rw [hz]
        simp
      · rfl

/-- C10: when preserved media entries exist, addImages writes exactly
those entries and never decodes base64 run images; base64 images are
decoded into archive entries only when mediaFiles is absent or empty; and
independently of that, every run image with truthy data and no mediaPath
still gets a sequentially numbered relationship line, targeting
media/image{N}.{ext}, emitted into the document rels part. -/
theorem c10_media_preservation :
    (∀ (doc : ExtractedDocument) (ms : List (String × List Nat)),
      doc.mediaFiles = some ms → ms ≠ [] → addImages doc = ms)
    ∧ (∀ doc : ExtractedDocument,
      doc.mediaFiles = none ∨ doc.mediaFiles = some [] →
      addImages doc = fallbackEntries (dataImages doc) 0)
    ∧ (∀ (doc : ExtractedDocument) (k : ℕ) (image : ExtractedImage),
      (newImages doc).get? k = some image →
      HasSub (addDocumentRels doc).1
        (newImageRelLine (5 + mediaRelCount doc + k) (1 + k) image)) := by
  have hfb : ∀ doc : ExtractedDocument,
      fallbackImages doc = fallbackEntries (dataImages doc) 0 := by
    intro doc
    unfold fallbackImages dataImages
    rw [nested_runs_foldl fbStep]
    rw [fb_fold_char]
    simp
  refine ⟨?_, ?_, ?_⟩
  · intro doc ms h hne
    unfold addImages
    rw [h]
    dsimp only
    rw [if_pos (List.length_pos.mpr hne)]
  · intro doc h
    rcases h with h | h
    · unfold addImages
      rw [h]
      exact hfb doc
    · unfold addImages
      rw [h]
      simp only [List.length_nil, gt_iff_lt, lt_self_iff_false, if_false]
      exact hfb doc
  · intro doc k image hk
    unfold addDocumentRels
    apply HasSub.appendLeft
    rw [nested_runs_foldl newImageRelStep]
    have hc := relsAfterMedia_counts doc
    have hk' : (newImagesRuns
        ((doc.paragraphs.map (fun p => p.runs)).flatten)).get? k = some image := hk
    have h := relsFold_line ((doc.paragraphs.map (fun p => p.runs)).flatten)
      (relsAfterMedia doc) k image hk'
    rw [hc.1, hc.2] at h
    rw [show (0 : Int) + 1 + (k : Int) = 1 + (k : Int) by ring] at h
    exact h

/-- New image with base64 data and no mediaPath. -/
def imgNew : ExtractedImage :=
  ⟨"srcNew", none, none, none, some [1, 2, 3], some "image/png"⟩

/-- Document carrying one preserved media entry and one new image. -/
def docWithMedia : ExtractedDocument :=
  { paragraphs := [⟨[⟨none, some imgNew⟩], none, none, none, none, none, true⟩],
    tables := [], body := [], styles := [], numbering := none,
    mediaFiles := some [("word/media/image1.png", [9, 9])] }

/-- Same document without preserved media. -/
def docNoMedia : ExtractedDocument :=
  { paragraphs := [⟨[⟨none, some imgNew⟩], none, none, none, none, none, true⟩],
    tables := [], body := [], styles := [], numbering := none,
    mediaFiles := none }

set_option maxRecDepth 20000 in
theorem c10_media_preservation_witness :
    addImages docWithMedia = [("word/media/image1.png", [9, 9])]
    ∧ addImages docNoMedia = fallbackEntries (dataImages docNoMedia) 0
    ∧ HasSub (addDocumentRels docWithMedia).1
        (newImageRelLine (5 + mediaRelCount docWithMedia + (0 : ℕ)) (1 + (0 : ℕ)) imgNew) :=
  ⟨c10_media_preservation.1 docWithMedia _ rfl (by decide),
   c10_media_preservation.2.1 docNoMedia (Or.inl rfl),
   c10_media_preservation.2.2 docWithMedia 0 imgNew (by decide)⟩

/-- Run holding only an explicit page-break marker. -/
def runPageBreakOnly : Xml :=
  Xml.node "r" [] "" [Xml.node "br" [("type", "page")] "" []]

/-- C3 counterexample: the form feed produced for an explicit page-break
marker does not survive extraction — the run is extracted with a plain
space instead. -/
theorem c3_run_text_assembly_counterexample :
    (extractRun ctx0 runPageBreakOnly).text = some " "
    ∧ ¬ ((extractRun ctx0 runPageBreakOnly).text = some "\u000C") := by
  refine ⟨?_, ?_⟩ <;> decide
